import Mathlib

/-!
# Verification of the `meld` convergence engine

Shallow embedding of the core of the `meld` repository (advisor pool with
per-error-kind retry, line-diff based convergence detector, orchestrator
round loop, melder result extraction), together with theorems settling the
frozen claims about its specification.

Sources embedded:
* `src/meld/data_models.py` — result/error vocabulary;
* `src/meld/convergence.py` — `ConvergenceDetector` (including the parts of
  CPython's `difflib.SequenceMatcher` that `calculate_diff_ratio` relies on);
* `src/meld/advisors.py` — `AdvisorPool`;
* `src/meld/melder.py` — `Melder` failure semantics and
  `_extract_convergence`;
* `src/meld/orchestrator.py` — `Orchestrator.run`.

Modelling conventions: Python `float` arithmetic is modelled over `ℚ`
(all quantities involved are ratios `2*M/T` of machine integers); awaited
calls to external provider processes are modelled as oracle functions;
exceptions are modelled with `Except`; wall-clock fields (`timestamp`,
`duration_seconds`) are not modelled.
-/

namespace Meld

/-! ## Data model (`src/meld/data_models.py`) -/

/-- `ProviderErrorType` — categorized error types for provider failures. -/
inductive ProviderErrorType where
  | CLI_NOT_FOUND
  | AUTH_FAILED
  | TIMEOUT
  | RATE_LIMITED
  | NETWORK_ERROR
  | PARSE_ERROR
  | UNKNOWN
deriving DecidableEq, Repr

/-- `ProviderError` — error from a provider adapter.  The `details` dict and
the `timestamp` field (wall clock) are not modelled. -/
structure ProviderError where
  error_type : ProviderErrorType
  message : String
  provider : String
  retryable : Bool := false
deriving DecidableEq, Repr

/-- `AdvisorResult` — result from an advisor invocation.  The `timestamp`
field (wall clock) is not modelled; `duration_seconds` is modelled as `ℚ`. -/
structure AdvisorResult where
  provider : String
  success : Bool
  feedback : String := ""
  error : Option ProviderError := none
  duration_seconds : ℚ := 0
  round_number : Nat := 0
deriving DecidableEq, Repr

/-- `ConvergenceStatus` — status of convergence detection. -/
inductive ConvergenceStatus where
  | CONVERGED
  | CONTINUING
  | OSCILLATING
  | NEEDS_HUMAN
deriving DecidableEq, Repr

/-- `ConvergenceAssessment` — assessment of plan convergence.  `changes_made`
and `open_items` are Python `int`s, modelled as `ℤ`; `diff_ratio` (a Python
`float` equal to `1 - 2*M/T` for machine integers `M`, `T`) is modelled
as `ℚ`. -/
structure ConvergenceAssessment where
  status : ConvergenceStatus
  changes_made : ℤ
  open_items : ℤ
  diff_ratio : ℚ := 0
  rationale : String := ""
deriving DecidableEq, Repr

/-! ## `str.splitlines`

`ConvergenceDetector.calculate_diff_ratio` splits both plans with Python's
`str.splitlines()`.  We model the line boundaries `\n`, `\r\n` and `\r`
(the exotic Unicode boundary characters recognized by CPython do not occur
in any input of this development). -/

/-- Accumulator-based worker for `splitlines`; `acc` holds the current line
reversed. -/
def splitlinesAux : List Char → List Char → List String
  | acc, [] => if acc.isEmpty then [] else [String.mk acc.reverse]
  | acc, '\r' :: '\n' :: rest => String.mk acc.reverse :: splitlinesAux [] rest
  | acc, '\n' :: rest => String.mk acc.reverse :: splitlinesAux [] rest
  | acc, '\r' :: rest => String.mk acc.reverse :: splitlinesAux [] rest
  | acc, c :: rest => splitlinesAux (c :: acc) rest

/-- Python `str.splitlines()`: split at line boundaries, without keeping
them; a trailing boundary does not produce a trailing empty line. -/
def splitlines (s : String) : List String :=
  splitlinesAux [] s.data

/-! ## `difflib.SequenceMatcher` (CPython stdlib)

`calculate_diff_ratio` is `1.0 - SequenceMatcher(None, old_lines,
new_lines).ratio()`.  We embed the parts of CPython's `difflib` that
`ratio()` executes with `isjunk is None` (so the junk set `bjunk` is empty)
and `autojunk=True` (the default): `__chain_b`'s construction of `b2j` with
the popular-element purge, `find_longest_match`, the decomposition performed
by `get_matching_blocks` (of which `ratio` uses only the sum of the block
sizes), and `_calculate_ratio`. -/

namespace Difflib

/-- The junk set `self.bjunk`: `SequenceMatcher(None, …)` passes
`isjunk=None`, so no element is junk. -/
def bjunk (_ : String) : Bool := false

/-- Number of occurrences of line `e` in `b` (`len(b2j[e])` before the
popular purge). -/
def occurrences (b : List String) (e : String) : Nat :=
  (b.filter (fun x => x = e)).length

/-- The autojunk "popular" test in `__chain_b`: with `n = len(b) >= 200`,
elements occurring more than `n // 100 + 1` times are purged from `b2j`. -/
def popular (b : List String) (e : String) : Bool :=
  200 ≤ b.length && b.length / 100 + 1 < occurrences b e

/-- `self.b2j[e]`: the ascending list of positions of `e` in `b`, or `[]`
if `e` was purged as popular (a missing key reads as the empty list
`nothing` in `find_longest_match`). -/
def b2j (b : List String) (e : String) : List Nat :=
  if popular b e then []
  else (List.range b.length).filter (fun j => b.getD j "" = e)

/-- A candidate best block `(besti, bestj, bestsize)` as tracked by
`find_longest_match`. -/
structure Best where
  besti : Nat
  bestj : Nat
  bestsize : Nat
deriving DecidableEq, Repr

/-- One row of the `j2len` table: `newj2len[j] = j2len.get(j-1, 0) + 1` for
each `j` in `b2j[a[i]]` with `blo <= j < bhi`, else absent (read as `0`). -/
def newRow (js : List Nat) (prev : Nat → Nat) : Nat → Nat :=
  fun j => if j ∈ js then (if j = 0 then 0 else prev (j - 1)) + 1 else 0

/-- The best-block update scan over the in-range occurrence list for row
`i`: `if k > bestsize: besti, bestj, bestsize = i-k+1, j-k+1, k`. -/
def scanJs (i : Nat) (row : Nat → Nat) : List Nat → Best → Best
  | [], best => best
  | j :: rest, best =>
      let k := row j
      scanJs i row rest
        (if best.bestsize < k then ⟨i + 1 - k, j + 1 - k, k⟩ else best)

/-- The main dynamic-programming loop of `find_longest_match` over the rows
`i ∈ [alo, ahi)`; returns the final `j2len` row and the best block.
The `continue`/`break` guards on `j < blo` / `j >= bhi` are modelled by
filtering the (ascending) occurrence list. -/
def flmMain (a b : List String) (blo bhi : Nat) :
    List Nat → (Nat → Nat) → Best → (Nat → Nat) × Best
  | [], row, best => (row, best)
  | i :: rest, row, best =>
      let js := (b2j b (a.getD i "")).filter (fun j => blo ≤ j && j < bhi)
      let row' := newRow js row
      flmMain a b blo bhi rest row' (scanJs i row' js best)

/-- Backward extension loop of `find_longest_match`: extend the best block
while the adjacent elements are equal and the `b`-element's junk status is
`junkval` (`false` for the "non-junk" loop, `true` for the "junk" loop).
The `while` loop is written with an explicit iteration bound (each
iteration decrements `besti`, and the guard needs `alo < besti`, so the
initial `besti` bounds the iteration count and the bound never cuts the
loop short). -/
def extBackF (a b : List String) (alo blo : Nat) (junkval : Bool) :
    Nat → Best → Best
  | 0, best => best
  | fuel + 1, best =>
      if alo < best.besti ∧ blo < best.bestj ∧
          bjunk (b.getD (best.bestj - 1) "") = junkval ∧
          a.getD (best.besti - 1) "" = b.getD (best.bestj - 1) "" then
        extBackF a b alo blo junkval fuel
          ⟨best.besti - 1, best.bestj - 1, best.bestsize + 1⟩
      else best

/-- The backward extension loop, entered with its iteration bound. -/
def extBack (a b : List String) (alo blo : Nat) (junkval : Bool)
    (best : Best) : Best :=
  extBackF a b alo blo junkval best.besti best

/-- Forward extension loop of `find_longest_match`, analogous to
`extBack`; each iteration increments `bestsize`, and the guard needs
`besti + bestsize < ahi`, so `ahi - (besti + bestsize)` bounds the
iteration count. -/
def extFwdF (a b : List String) (ahi bhi : Nat) (junkval : Bool) :
    Nat → Best → Best
  | 0, best => best
  | fuel + 1, best =>
      if best.besti + best.bestsize < ahi ∧
          best.bestj + best.bestsize < bhi ∧
          bjunk (b.getD (best.bestj + best.bestsize) "") = junkval ∧
          a.getD (best.besti + best.bestsize) ""
            = b.getD (best.bestj + best.bestsize) "" then
        extFwdF a b ahi bhi junkval fuel
          ⟨best.besti, best.bestj, best.bestsize + 1⟩
      else best

/-- The forward extension loop, entered with its iteration bound. -/
def extFwd (a b : List String) (ahi bhi : Nat) (junkval : Bool)
    (best : Best) : Best :=
  extFwdF a b ahi bhi junkval (ahi - (best.besti + best.bestsize)) best

/-- `SequenceMatcher.find_longest_match(alo, ahi, blo, bhi)`: the main loop
followed by the two non-junk extension loops and the two junk extension
loops (the latter never fire since `bjunk` is empty). -/
def findLongestMatch (a b : List String) (alo ahi blo bhi : Nat) : Best :=
  let best := (flmMain a b blo bhi (List.range' alo (ahi - alo))
    (fun _ => 0) ⟨alo, blo, 0⟩).2
  let best := extBack a b alo blo false best
  let best := extFwd a b ahi bhi false best
  let best := extBack a b alo blo true best
  extFwd a b ahi bhi true best

/-- Range invariant for the tracked best block, as documented in
`find_longest_match`: `alo <= i <= i+k <= ahi` and `blo <= j <= j+k <= bhi`
whenever a block was found, and `(besti, bestj) = (alo, blo)` when none
was. -/
def BestInv (alo ahi blo bhi : Nat) (m : Best) : Prop :=
  alo ≤ m.besti ∧ blo ≤ m.bestj ∧
    (m.bestsize = 0 → m.besti = alo ∧ m.bestj = blo) ∧
    (0 < m.bestsize → m.besti + m.bestsize ≤ ahi ∧ m.bestj + m.bestsize ≤ bhi)

theorem scanJs_inv {alo ahi blo bhi : Nat} (i : Nat) (row : Nat → Nat)
    (hi : i < ahi) (hja : ∀ j, row j ≤ i + 1 - alo)
    (hjb : ∀ j, row j ≤ j + 1 - blo) :
    ∀ js best, (∀ j ∈ js, blo ≤ j ∧ j < bhi) →
      BestInv alo ahi blo bhi best →
      BestInv alo ahi blo bhi (scanJs i row js best)
  | [], best, _, hb => hb
  | j :: rest, best, hmem, hb => by
      refine scanJs_inv i row hi hja hjb rest _
        (fun j' hj' => hmem j' (List.mem_cons_of_mem _ hj')) ?_
      have hj := hmem j (List.mem_cons_self _ _)
      have h1 := hja j
      have h2 := hjb j
      by_cases hlt : best.bestsize < row j
      · simp only [if_pos hlt]
        obtain ⟨_, _, _, _⟩ := hb
        refine ⟨?_, ?_, ?_, fun _ => ⟨?_, ?_⟩⟩ <;> (dsimp only; omega)
      · simpa only [if_neg hlt] using hb

theorem flmMain_inv (a b : List String) {alo ahi blo bhi : Nat} :
    ∀ (len i₀ : Nat) (row : Nat → Nat) (best : Best), alo ≤ i₀ →
      len ≤ ahi - i₀ →
      (∀ j, row j ≤ i₀ - alo) → (∀ j, row j ≤ j + 1 - blo) →
      BestInv alo ahi blo bhi best →
      BestInv alo ahi blo bhi
        (flmMain a b blo bhi (List.range' i₀ len) row best).2
  | 0, _, _, _, _, _, _, _, hb => hb
  | len + 1, i₀, row, best, hlo, hhi, hja, hjb, hb => by
      have hrange : List.range' i₀ (len + 1) = i₀ :: List.range' (i₀ + 1) len :=
        rfl
      rw [hrange]
      simp only [flmMain]
      set js := (b2j b (a.getD i₀ "")).filter (fun j => blo ≤ j && j < bhi)
        with hjs
      have hmem : ∀ j ∈ js, blo ≤ j ∧ j < bhi := by
        intro j hj
        have := (List.mem_filter.mp hj).2
        simpa using this
      have hja' : ∀ j, newRow js row j ≤ i₀ + 1 - alo := by
        intro j
        unfold newRow
        by_cases hmemj : j ∈ js
        · simp only [if_pos hmemj]
          by_cases hj0 : j = 0
          · simp only [if_pos hj0]; omega
          · simp only [if_neg hj0]; have := hja (j - 1); omega
        · simp only [if_neg hmemj]; omega
      have hjb' : ∀ j, newRow js row j ≤ j + 1 - blo := by
        intro j
        unfold newRow
        by_cases hmemj : j ∈ js
        · have hblo := (hmem j hmemj).1
          simp only [if_pos hmemj]
          by_cases hj0 : j = 0
          · simp only [if_pos hj0]; omega
          · simp only [if_neg hj0]; have := hjb (j - 1); omega
        · simp only [if_neg hmemj]; omega
      exact flmMain_inv a b len (i₀ + 1) _ _ (by omega) (by omega) hja' hjb'
        (scanJs_inv i₀ _ (by omega) hja' hjb' js best hmem hb)

theorem extBackF_inv (a b : List String) {alo ahi blo bhi : Nat}
    (junkval : Bool) :
    ∀ (fuel : Nat) (best : Best), BestInv alo ahi blo bhi best →
      BestInv alo ahi blo bhi (extBackF a b alo blo junkval fuel best)
  | 0, _, hb => hb
  | fuel + 1, best, hb => by
      rw [extBackF]
      by_cases h : alo < best.besti ∧ blo < best.bestj ∧
          bjunk (b.getD (best.bestj - 1) "") = junkval ∧
          a.getD (best.besti - 1) "" = b.getD (best.bestj - 1) ""
      · rw [if_pos h]
        obtain ⟨h1, h2, h3, h4⟩ := hb
        obtain ⟨hg1, hg2, -, -⟩ := h
        refine extBackF_inv a b junkval fuel _ ⟨?_, ?_, ?_, ?_⟩ <;> dsimp only
        · omega
        · omega
        · omega
        · intro _
          by_cases hsz : best.bestsize = 0
          · obtain ⟨hi, hj⟩ := h3 hsz
            constructor <;> omega
          · have := h4 (by omega)
            constructor <;> omega
      · rw [if_neg h]
        exact hb

theorem extBack_inv (a b : List String) {alo ahi blo bhi : Nat}
    (junkval : Bool) (best : Best) (hb : BestInv alo ahi blo bhi best) :
    BestInv alo ahi blo bhi (extBack a b alo blo junkval best) :=
  extBackF_inv a b junkval best.besti best hb

theorem extFwdF_inv (a b : List String) {alo ahi blo bhi : Nat}
    (junkval : Bool) :
    ∀ (fuel : Nat) (best : Best), BestInv alo ahi blo bhi best →
      BestInv alo ahi blo bhi (extFwdF a b ahi bhi junkval fuel best)
  | 0, _, hb => hb
  | fuel + 1, best, hb => by
      rw [extFwdF]
      by_cases h : best.besti + best.bestsize < ahi ∧
          best.bestj + best.bestsize < bhi ∧
          bjunk (b.getD (best.bestj + best.bestsize) "") = junkval ∧
          a.getD (best.besti + best.bestsize) ""
            = b.getD (best.bestj + best.bestsize) ""
      · rw [if_pos h]
        obtain ⟨h1, h2, h3, h4⟩ := hb
        obtain ⟨hg1, hg2, -, -⟩ := h
        refine extFwdF_inv a b junkval fuel _
          ⟨?_, ?_, ?_, fun _ => ⟨?_, ?_⟩⟩ <;> dsimp only <;> omega
      · rw [if_neg h]
        exact hb

theorem extFwd_inv (a b : List String) {alo ahi blo bhi : Nat}
    (junkval : Bool) (best : Best) (hb : BestInv alo ahi blo bhi best) :
    BestInv alo ahi blo bhi (extFwd a b ahi bhi junkval best) :=
  extFwdF_inv a b junkval (ahi - (best.besti + best.bestsize)) best hb

theorem findLongestMatch_inv (a b : List String) (alo ahi blo bhi : Nat) :
    BestInv alo ahi blo bhi (findLongestMatch a b alo ahi blo bhi) := by
  unfold findLongestMatch
  refine extFwd_inv a b true _ (extBack_inv a b true _
    (extFwd_inv a b false _ (extBack_inv a b false _ ?_)))
  have h0 : BestInv alo ahi blo bhi ⟨alo, blo, 0⟩ := by
    refine ⟨le_refl _, le_refl _, fun _ => ⟨rfl, rfl⟩, fun h => ?_⟩
    dsimp only at h
    omega
  exact flmMain_inv a b (ahi - alo) alo (fun _ => 0) ⟨alo, blo, 0⟩
    (le_refl _) (le_refl _) (fun _ => Nat.zero_le _) (fun _ => Nat.zero_le _)
    h0

/-- The sum of the sizes of the matching blocks found by
`get_matching_blocks` over the subproblem `a[alo:ahi]` / `b[blo:bhi]`
(`ratio()` uses the blocks only through this sum; the queue order and the
adjacent-block consolidation in `get_matching_blocks` do not change it).
The divide-and-conquer recursion is written with an explicit depth bound:
every recursive call strictly shrinks `(ahi - alo) + (bhi - blo)` (by
`findLongestMatch_inv`), so the bound `(ahi - alo) + (bhi - blo) + 1`
supplied by `matchingTotal` never cuts the recursion short. -/
def matchingTotalF (a b : List String) : Nat → Nat → Nat → Nat → Nat → Nat
  | 0, _, _, _, _ => 0
  | fuel + 1, alo, ahi, blo, bhi =>
      if (findLongestMatch a b alo ahi blo bhi).bestsize = 0 then 0
      else
        (if alo < (findLongestMatch a b alo ahi blo bhi).besti ∧
            blo < (findLongestMatch a b alo ahi blo bhi).bestj then
          matchingTotalF a b fuel alo
            (findLongestMatch a b alo ahi blo bhi).besti
            blo (findLongestMatch a b alo ahi blo bhi).bestj
        else 0)
        + (findLongestMatch a b alo ahi blo bhi).bestsize +
        (if (findLongestMatch a b alo ahi blo bhi).besti
              + (findLongestMatch a b alo ahi blo bhi).bestsize < ahi ∧
            (findLongestMatch a b alo ahi blo bhi).bestj
              + (findLongestMatch a b alo ahi blo bhi).bestsize < bhi then
          matchingTotalF a b fuel
            ((findLongestMatch a b alo ahi blo bhi).besti
              + (findLongestMatch a b alo ahi blo bhi).bestsize) ahi
            ((findLongestMatch a b alo ahi blo bhi).bestj
              + (findLongestMatch a b alo ahi blo bhi).bestsize) bhi
        else 0)

/-- The total number of matched lines between `a[alo:ahi]` and
`b[blo:bhi]`. -/
def matchingTotal (a b : List String) (alo ahi blo bhi : Nat) : Nat :=
  matchingTotalF a b ((ahi - alo) + (bhi - blo) + 1) alo ahi blo bhi

theorem matchingTotalF_le (a b : List String) :
    ∀ (fuel alo ahi blo bhi : Nat),
      matchingTotalF a b fuel alo ahi blo bhi ≤ ahi - alo ∧
      matchingTotalF a b fuel alo ahi blo bhi ≤ bhi - blo := by
  intro fuel
  induction fuel with
  | zero =>
      intro alo ahi blo bhi
      rw [matchingTotalF]
      omega
  | succ fuel ih =>
      intro alo ahi blo bhi
      obtain ⟨hb1, hb2, hb3, hb4⟩ := findLongestMatch_inv a b alo ahi blo bhi
      rw [matchingTotalF]
      by_cases hsz : (findLongestMatch a b alo ahi blo bhi).bestsize = 0
      · rw [if_pos hsz]
        omega
      · have hbnd := hb4 (by omega)
        rw [if_neg hsz]
        by_cases hl : alo < (findLongestMatch a b alo ahi blo bhi).besti ∧
            blo < (findLongestMatch a b alo ahi blo bhi).bestj
        · rw [if_pos hl]
          obtain ⟨hA1, hA2⟩ := ih alo
            (findLongestMatch a b alo ahi blo bhi).besti
            blo (findLongestMatch a b alo ahi blo bhi).bestj
          by_cases hr : (findLongestMatch a b alo ahi blo bhi).besti
                + (findLongestMatch a b alo ahi blo bhi).bestsize < ahi ∧
              (findLongestMatch a b alo ahi blo bhi).bestj
                + (findLongestMatch a b alo ahi blo bhi).bestsize < bhi
          · rw [if_pos hr]
            obtain ⟨hB1, hB2⟩ := ih
              ((findLongestMatch a b alo ahi blo bhi).besti
                + (findLongestMatch a b alo ahi blo bhi).bestsize) ahi
              ((findLongestMatch a b alo ahi blo bhi).bestj
                + (findLongestMatch a b alo ahi blo bhi).bestsize) bhi
            omega
          · rw [if_neg hr]
            omega
        · rw [if_neg hl]
          by_cases hr : (findLongestMatch a b alo ahi blo bhi).besti
                + (findLongestMatch a b alo ahi blo bhi).bestsize < ahi ∧
              (findLongestMatch a b alo ahi blo bhi).bestj
                + (findLongestMatch a b alo ahi blo bhi).bestsize < bhi
          · rw [if_pos hr]
            obtain ⟨hB1, hB2⟩ := ih
              ((findLongestMatch a b alo ahi blo bhi).besti
                + (findLongestMatch a b alo ahi blo bhi).bestsize) ahi
              ((findLongestMatch a b alo ahi blo bhi).bestj
                + (findLongestMatch a b alo ahi blo bhi).bestsize) bhi
            omega
          · rw [if_neg hr]
            omega

/-- The number of matched lines never exceeds either sequence length. -/
theorem matchingTotal_le (a b : List String) (alo ahi blo bhi : Nat) :
    matchingTotal a b alo ahi blo bhi ≤ ahi - alo ∧
    matchingTotal a b alo ahi blo bhi ≤ bhi - blo :=
  matchingTotalF_le a b ((ahi - alo) + (bhi - blo) + 1) alo ahi blo bhi

/-! ### `ratio()` on two identical sequences

`find_longest_match` over `a` against `a` itself on the full symmetric
range always returns the full-length diagonal block `(0, 0, len a)`: the
main loop can only ever record a best block on the diagonal (an
off-diagonal junk-free run is never strictly longer than the diagonal
junk-free run ending at the same row, and the diagonal occurrence of
`a[i]` is scanned before any later occurrence), and the extension loops
then stretch a diagonal block over the whole sequence.  Hence
`ratio() = 1` exactly, even when the autojunk purge is active. -/

/-- Length of the maximal run of non-popular elements of `a` ending at
position `j` (the maximal length of a junk-free match ending at `(j, j)`). -/
def streak (a : List String) : Nat → Nat
  | 0 => if popular a (a.getD 0 "") then 0 else 1
  | j + 1 => if popular a (a.getD (j + 1) "") then 0 else streak a j + 1

/-- `streak` at the position before `t` (`0` for `t = 0`). -/
def streakBefore (a : List String) : Nat → Nat
  | 0 => 0
  | t + 1 => streak a t

theorem streak_popular {a : List String} {t : Nat}
    (h : popular a (a.getD t "") = true) : streak a t = 0 := by
  cases t with
  | zero => rw [streak, h]; simp
  | succ t' => rw [streak, h]; simp

theorem streak_nonpopular {a : List String} {t : Nat}
    (h : popular a (a.getD t "") = false) :
    streak a t = streakBefore a t + 1 := by
  cases t with
  | zero => rw [streak, h]; simp [streakBefore]
  | succ t' => rw [streak, h]; simp [streakBefore]

theorem mem_b2j {a : List String} {e : String} {j : Nat} :
    j ∈ b2j a e ↔ popular a e = false ∧ j < a.length ∧ a.getD j "" = e := by
  unfold b2j
  cases hp : popular a e <;>
    simp [hp, List.mem_filter, List.mem_range]

theorem scanJs_nil (i : Nat) (row : Nat → Nat) (best : Best) :
    scanJs i row [] best = best := rfl

theorem scanJs_cons (i : Nat) (row : Nat → Nat) (j : Nat) (rest : List Nat)
    (best : Best) :
    scanJs i row (j :: rest) best = scanJs i row rest
      (if best.bestsize < row j then ⟨i + 1 - row j, j + 1 - row j, row j⟩
       else best) := rfl

theorem scanJs_no_update (i : Nat) (row : Nat → Nat) :
    ∀ (js : List Nat) (best : Best), (∀ j ∈ js, row j ≤ best.bestsize) →
      scanJs i row js best = best
  | [], _, _ => rfl
  | j :: rest, best, h => by
      rw [scanJs_cons, if_neg (by have := h j (List.mem_cons_self j rest); omega)]
      exact scanJs_no_update i row rest best
        (fun j' hj' => h j' (List.mem_cons_of_mem _ hj'))

theorem scanJs_append (i : Nat) (row : Nat → Nat) :
    ∀ (l₁ l₂ : List Nat) (best : Best),
      scanJs i row (l₁ ++ l₂) best = scanJs i row l₂ (scanJs i row l₁ best)
  | [], _, _ => rfl
  | j :: rest, l₂, best => by
      rw [List.cons_append, scanJs_cons, scanJs_cons]
      exact scanJs_append i row rest l₂ _

theorem flmMain_nil (a b : List String) (blo bhi : Nat) (row : Nat → Nat)
    (best : Best) : flmMain a b blo bhi [] row best = (row, best) := rfl

theorem flmMain_cons (a b : List String) (blo bhi i : Nat) (rest : List Nat)
    (row : Nat → Nat) (best : Best) :
    flmMain a b blo bhi (i :: rest) row best =
      flmMain a b blo bhi rest
        (newRow ((b2j b (a.getD i "")).filter (fun j => blo ≤ j && j < bhi))
          row)
        (scanJs i
          (newRow ((b2j b (a.getD i "")).filter (fun j => blo ≤ j && j < bhi))
            row)
          ((b2j b (a.getD i "")).filter (fun j => blo ≤ j && j < bhi))
          best) := rfl

/-- Over the full symmetric self-comparison range, the `blo ≤ j < bhi`
filter on an occurrence list is the identity. -/
theorem b2j_filter_full (a : List String) (e : String) :
    (b2j a e).filter (fun j => 0 ≤ j && j < a.length) = b2j a e := by
  refine List.filter_eq_self.mpr (fun j hj => ?_)
  have := (mem_b2j.mp hj).2.1
  simp [this]

/-- Splitting the occurrence list of `a[t]` in `a` at the diagonal
position `t`. -/
theorem b2j_self_split (a : List String) (t : Nat) (ht : t < a.length)
    (hp : popular a (a.getD t "") = false) :
    b2j a (a.getD t "") =
      (List.range t).filter (fun j => a.getD j "" = a.getD t "") ++
      t :: (List.range' (t + 1) (a.length - (t + 1))).filter
        (fun j => a.getD j "" = a.getD t "") := by
  unfold b2j
  rw [hp]
  rw [if_neg (by simp)]
  have hsplit : List.range a.length =
      List.range t ++ t :: List.range' (t + 1) (a.length - (t + 1)) := by
    rw [List.range_eq_range', List.range_eq_range']
    have h1 := List.range'_append 0 t (a.length - t) 1
    have h2 := List.range'_succ t (a.length - (t + 1)) 1
    simp only [Nat.one_mul, Nat.zero_add] at h1
    have hne : a.length - t = a.length - (t + 1) + 1 := by omega
    calc List.range' 0 a.length
        = List.range' 0 (a.length - t + t) := by rw [Nat.sub_add_cancel (by omega)]
      _ = List.range' 0 t ++ List.range' t (a.length - t) := h1.symm
      _ = List.range' 0 t ++ (t :: List.range' (t + 1) (a.length - (t + 1))) := by
          rw [hne, h2]
  rw [hsplit, List.filter_append, List.filter_cons_of_pos (by simp)]

theorem flmMain_self_diag (a : List String) :
    ∀ (len t : Nat) (row : Nat → Nat) (best : Best),
      t + len = a.length →
      (∀ j, row j ≤ streak a j) →
      (∀ j, row j ≤ streakBefore a t) →
      (0 < t → row (t - 1) = streak a (t - 1)) →
      best.besti = best.bestj →
      (∀ j, j < t → streak a j ≤ best.bestsize) →
      (flmMain a a 0 a.length (List.range' t len) row best).2.besti
        = (flmMain a a 0 a.length (List.range' t len) row best).2.bestj
  | 0, t, row, best, _, _, _, _, hBd, _ => by
      simpa [List.range', flmMain_nil] using hBd
  | len + 1, t, row, best, hlen, hR1, hR2, hDg, hBd, hBs => by
      rw [List.range'_succ t len 1, flmMain_cons, b2j_filter_full]
      have ht : t < a.length := by omega
      by_cases hpop : popular a (a.getD t "") = true
      · -- popular row: empty occurrence list, nothing changes
        have hb2j : b2j a (a.getD t "") = [] := by
          unfold b2j
          rw [hpop, if_pos rfl]
        rw [hb2j]
        have hrow0 : ∀ j, newRow [] row j = 0 := by
          intro j
          simp [newRow]
        refine flmMain_self_diag a len (t + 1) _ _ (by omega) ?_ ?_ ?_
          (by simpa [scanJs_nil] using hBd) ?_
        · intro j; rw [hrow0]; omega
        · intro j; rw [hrow0]; omega
        · intro _
          rw [hrow0]
          simp only [Nat.add_sub_cancel]
          exact (streak_popular hpop).symm
        · intro j hj
          rw [scanJs_nil]
          rcases Nat.lt_or_ge j t with hjt | hjt
          · exact hBs j hjt
          · have : j = t := by omega
            rw [this, streak_popular hpop]
            omega
      · -- non-popular row: the diagonal entry is scanned in the middle
        have hp : popular a (a.getD t "") = false := by
          revert hpop
          cases popular a (a.getD t "") <;> simp
        rw [b2j_self_split a t ht hp]
        set q : Nat → Bool := fun j => a.getD j "" = a.getD t "" with hq
        set jsL := (List.range t).filter q with hjsL
        set jsR := (List.range' (t + 1) (a.length - (t + 1))).filter q
          with hjsR
        set js := jsL ++ t :: jsR with hjs
        set row' := newRow js row with hrow'
        -- membership facts
        have hmemL : ∀ j ∈ jsL, j < t := by
          intro j hj
          rw [hjsL] at hj
          exact List.mem_range.mp (List.mem_filter.mp hj).1
        have hmemR : ∀ j ∈ jsR, t + 1 ≤ j := by
          intro j hj
          rw [hjsR] at hj
          have := List.mem_range'.mp (List.mem_filter.mp hj).1
          obtain ⟨i, _, rfl⟩ := this
          omega
        have hmem_q : ∀ j ∈ js, a.getD j "" = a.getD t "" := by
          intro j hj
          rw [hjs] at hj
          rcases List.mem_append.mp hj with hj | hj
          · have := (List.mem_filter.mp hj).2
            rw [hq] at this
            simpa using this
          · rcases List.mem_cons.mp hj with rfl | hj
            · rfl
            · have := (List.mem_filter.mp hj).2
              rw [hq] at this
              simpa using this
        have ht_mem : t ∈ js := by
          rw [hjs]
          exact List.mem_append.mpr (Or.inr (List.mem_cons_self _ _))
        -- row' values
        have hrow'_mem : ∀ j ∈ js,
            row' j = (if j = 0 then 0 else row (j - 1)) + 1 := by
          intro j hj
          rw [hrow']
          simp [newRow, hj]
        have hrow'_t : row' t = streak a t := by
          rw [hrow'_mem t ht_mem, streak_nonpopular hp]
          rcases Nat.eq_zero_or_pos t with rfl | htpos
          · simp [streakBefore]
          · rw [if_neg (by omega), hDg htpos]
            cases t with
            | zero => omega
            | succ t' => simp [streakBefore]
        have hstreak_j : ∀ j ∈ js, streak a j =
            (if j = 0 then 0 else streak a (j - 1)) + 1 := by
          intro j hj
          have hpj : popular a (a.getD j "") = false := by
            rw [hmem_q j hj]
            exact hp
          rw [streak_nonpopular hpj]
          cases j with
          | zero => simp [streakBefore]
          | succ j' => simp [streakBefore]
        have hR1' : ∀ j, row' j ≤ streak a j := by
          intro j
          by_cases hj : j ∈ js
          · rw [hrow'_mem j hj, hstreak_j j hj]
            rcases Nat.eq_zero_or_pos j with rfl | hjpos
            · simp
            · rw [if_neg (by omega), if_neg (by omega)]
              have := hR1 (j - 1)
              omega
          · rw [hrow']
            simp [newRow, hj]
        have hR2' : ∀ j, row' j ≤ streak a t := by
          intro j
          by_cases hj : j ∈ js
          · rw [hrow'_mem j hj, streak_nonpopular hp]
            rcases Nat.eq_zero_or_pos j with rfl | hjpos
            · simp
            · rw [if_neg (by omega)]
              have := hR2 (j - 1)
              omega
          · rw [hrow']
            simp [newRow, hj]
        -- the scan
        have hscanL : scanJs t row' jsL best = best := by
          refine scanJs_no_update t row' jsL best (fun j hj => ?_)
          have h1 := hR1' j
          have h2 := hBs j (hmemL j hj)
          omega
        have hdiag1 : (if best.bestsize < row' t
            then (⟨t + 1 - row' t, t + 1 - row' t, row' t⟩ : Best)
            else best).besti =
          (if best.bestsize < row' t
            then (⟨t + 1 - row' t, t + 1 - row' t, row' t⟩ : Best)
            else best).bestj := by
          by_cases hu : best.bestsize < row' t
          · rw [if_pos hu]
          · rw [if_neg hu]
            exact hBd
        have hsize1 : streak a t ≤ (if best.bestsize < row' t
            then (⟨t + 1 - row' t, t + 1 - row' t, row' t⟩ : Best)
            else best).bestsize := by
          by_cases hu : best.bestsize < row' t
          · rw [if_pos hu]
            dsimp only
            omega
          · rw [if_neg hu]
            rw [hrow'_t] at hu
            omega
        have hsizes1 : ∀ j, j < t → streak a j ≤
            (if best.bestsize < row' t
              then (⟨t + 1 - row' t, t + 1 - row' t, row' t⟩ : Best)
              else best).bestsize := by
          intro j hj
          have := hBs j hj
          by_cases hu : best.bestsize < row' t
          · rw [if_pos hu]
            dsimp only
            omega
          · rw [if_neg hu]
            exact this
        have hscanR : scanJs t row' jsR
            (if best.bestsize < row' t
              then (⟨t + 1 - row' t, t + 1 - row' t, row' t⟩ : Best)
              else best) =
            (if best.bestsize < row' t
              then (⟨t + 1 - row' t, t + 1 - row' t, row' t⟩ : Best)
              else best) := by
          refine scanJs_no_update t row' jsR _ (fun j hj => ?_)
          have h1 := hR2' j
          omega
        rw [hjs, scanJs_append, hscanL, scanJs_cons, hscanR]
        refine flmMain_self_diag a len (t + 1) row' _ (by omega) hR1' ?_ ?_
          hdiag1 ?_
        · intro j
          have := hR2' j
          simpa [streakBefore] using this
        · intro _
          simp only [Nat.add_sub_cancel]
          exact hrow'_t
        · intro j hj
          rcases Nat.lt_or_ge j t with hjt | hjt
          · exact hsizes1 j hjt
          · have : j = t := by omega
            rw [this]
            exact hsize1

theorem extBackF_true_id (a b : List String) (alo blo : Nat) :
    ∀ (fuel : Nat) (best : Best), extBackF a b alo blo true fuel best = best
  | 0, _ => rfl
  | fuel + 1, best => by
      rw [extBackF, if_neg]
      intro h
      exact absurd h.2.2.1 (by simp [bjunk])

theorem extBack_true_id (a b : List String) (alo blo : Nat) (best : Best) :
    extBack a b alo blo true best = best :=
  extBackF_true_id a b alo blo best.besti best

theorem extFwdF_true_id (a b : List String) (ahi bhi : Nat) :
    ∀ (fuel : Nat) (best : Best), extFwdF a b ahi bhi true fuel best = best
  | 0, _ => rfl
  | fuel + 1, best => by
      rw [extFwdF, if_neg]
      intro h
      exact absurd h.2.2.1 (by simp [bjunk])

theorem extFwd_true_id (a b : List String) (ahi bhi : Nat) (best : Best) :
    extFwd a b ahi bhi true best = best :=
  extFwdF_true_id a b ahi bhi _ best

/-- The backward non-junk extension of a diagonal block in a
self-comparison runs all the way back to the start. -/
theorem extBackF_self_diag (a : List String) :
    ∀ (d s : Nat), extBackF a a 0 0 false d ⟨d, d, s⟩ = ⟨0, 0, s + d⟩
  | 0, s => by
      rw [extBackF]
      rfl
  | d + 1, s => by
      rw [extBackF, if_pos ⟨Nat.succ_pos d, Nat.succ_pos d, rfl, rfl⟩]
      have := extBackF_self_diag a d (s + 1)
      simpa [Nat.add_assoc, Nat.add_comm, Nat.add_left_comm] using this

theorem extBack_self_diag (a : List String) (d s : Nat) :
    extBack a a 0 0 false ⟨d, d, s⟩ = ⟨0, 0, s + d⟩ :=
  extBackF_self_diag a d s

/-- The forward non-junk extension of an initial diagonal block in a
self-comparison runs all the way to the end. -/
theorem extFwdF_self_diag (a : List String) :
    ∀ (k s : Nat), a.length - s = k → s ≤ a.length →
      extFwdF a a a.length a.length false k ⟨0, 0, s⟩ = ⟨0, 0, a.length⟩
  | 0, s, hk, hs => by
      have hsn : s = a.length := by omega
      subst hsn
      rw [extFwdF]
  | k + 1, s, hk, hs => by
      have hlt : s < a.length := by omega
      rw [extFwdF,
        if_pos ⟨by dsimp only; omega, by dsimp only; omega, rfl, rfl⟩]
      exact extFwdF_self_diag a k (s + 1) (by omega) (by omega)

/-- On identical sequences, `find_longest_match` over the full range
returns the whole diagonal. -/
theorem findLongestMatch_self (a : List String) :
    findLongestMatch a a 0 a.length 0 a.length = ⟨0, 0, a.length⟩ := by
  unfold findLongestMatch
  set bm := (flmMain a a 0 a.length (List.range' 0 (a.length - 0))
    (fun _ => 0) ⟨0, 0, 0⟩).2 with hbm_def
  have hdiag : bm.besti = bm.bestj := by
    rw [hbm_def]
    have h0 : (0 : Nat) + (a.length - 0) = a.length := by omega
    rw [show a.length - 0 = a.length from by omega] at h0 ⊢
    exact flmMain_self_diag a a.length 0 (fun _ => 0) ⟨0, 0, 0⟩ h0
      (fun _ => Nat.zero_le _) (fun _ => Nat.le_refl 0)
      (fun h => absurd h (by omega)) rfl
      (fun _ h => absurd h (by omega))
  have hInv : BestInv 0 a.length 0 a.length bm := by
    rw [hbm_def]
    refine flmMain_inv a a (a.length - 0) 0 (fun _ => 0) ⟨0, 0, 0⟩
      (Nat.le_refl _) (Nat.le_refl _) (fun _ => Nat.zero_le _)
      (fun _ => Nat.zero_le _)
      ⟨Nat.le_refl _, Nat.le_refl _, fun _ => ⟨rfl, rfl⟩, fun h => ?_⟩
    dsimp only at h
    omega
  obtain ⟨hI1, hI2, hI3, hI4⟩ := hInv
  have hbm_eta : bm = (⟨bm.besti, bm.besti, bm.bestsize⟩ : Best) := by
    calc bm = ⟨bm.besti, bm.bestj, bm.bestsize⟩ := rfl
      _ = ⟨bm.besti, bm.besti, bm.bestsize⟩ := by rw [hdiag]
  have h1 : extBack a a 0 0 false bm = ⟨0, 0, bm.bestsize + bm.besti⟩ := by
    rw [hbm_eta]
    exact extBack_self_diag a bm.besti bm.bestsize
  have hs_le : bm.bestsize + bm.besti ≤ a.length := by
    by_cases hz : bm.bestsize = 0
    · have := (hI3 hz).1
      omega
    · have := hI4 (by omega)
      omega
  have h2 : extFwd a a a.length a.length false
      ⟨0, 0, bm.bestsize + bm.besti⟩ = (⟨0, 0, a.length⟩ : Best) := by
    show extFwdF a a a.length a.length false
      (a.length - (0 + (bm.bestsize + bm.besti))) _ = _
    rw [Nat.zero_add]
    exact extFwdF_self_diag a (a.length - (bm.bestsize + bm.besti)) _ rfl
      hs_le
  have hgoal : extFwd a a a.length a.length true (extBack a a 0 0 true
      (extFwd a a a.length a.length false (extBack a a 0 0 false bm)))
      = (⟨0, 0, a.length⟩ : Best) := by
    rw [h1, h2, extBack_true_id, extFwd_true_id]
  exact hgoal

/-- On identical sequences the matched-line total is the full length. -/
theorem matchingTotal_self (a : List String) :
    matchingTotal a a 0 a.length 0 a.length = a.length := by
  show matchingTotalF a a ((a.length - 0) + (a.length - 0) + 1)
    0 a.length 0 a.length = a.length
  rw [matchingTotalF, findLongestMatch_self]
  by_cases hn : a.length = 0
  · rw [if_pos (show (⟨0, 0, a.length⟩ : Best).bestsize = 0 from hn)]
    omega
  · rw [if_neg (show ¬(⟨0, 0, a.length⟩ : Best).bestsize = 0 from hn),
      if_neg (by dsimp only; omega), if_neg (by dsimp only; omega)]
    dsimp only
    omega

attribute [irreducible] matchingTotal

/-- `difflib._calculate_ratio(matches, length)`:
`2.0 * matches / length` when `length` is nonzero, else `1.0`. -/
def calculateRatio (m len : Nat) : ℚ :=
  if len ≠ 0 then 2 * (m : ℚ) / (len : ℚ) else 1

/-- `SequenceMatcher(None, a, b).ratio()`. -/
def seqRatio (a b : List String) : ℚ :=
  calculateRatio (matchingTotal a b 0 a.length 0 b.length)
    (a.length + b.length)

theorem seqRatio_nonneg (a b : List String) : 0 ≤ seqRatio a b := by
  unfold seqRatio calculateRatio
  by_cases h : a.length + b.length = 0
  · simp [h]
  · rw [if_pos h]
    positivity

theorem seqRatio_le_one (a b : List String) : seqRatio a b ≤ 1 := by
  unfold seqRatio calculateRatio
  by_cases h : a.length + b.length = 0
  · simp [h]
  · rw [if_pos h]
    rw [div_le_one (by positivity)]
    obtain ⟨h1, h2⟩ := matchingTotal_le a b 0 a.length 0 b.length
    have : 2 * matchingTotal a b 0 a.length 0 b.length
        ≤ a.length + b.length := by omega
    exact_mod_cast this

/-- `SequenceMatcher(None, a, a).ratio()` is exactly `1`. -/
theorem seqRatio_self (a : List String) : seqRatio a a = 1 := by
  unfold seqRatio calculateRatio
  rw [matchingTotal_self]
  by_cases hn : a.length = 0
  · rw [if_neg (by omega)]
  · rw [if_pos (by omega)]
    have hq : ((a.length + a.length : Nat) : ℚ) ≠ 0 := by
      exact_mod_cast (by omega : a.length + a.length ≠ 0)
    rw [div_eq_one_iff_eq hq]
    push_cast
    ring

end Difflib

/-- `ConvergenceDetector.calculate_diff_ratio(old_plan, new_plan)`:
`1.0 - SequenceMatcher(None, old_lines, new_lines).ratio()`. -/
def calculate_diff_ratio (old_plan new_plan : String) : ℚ :=
  1 - Difflib.seqRatio (splitlines old_plan) (splitlines new_plan)

/-- Identical texts diff to exactly `0`. -/
theorem calculate_diff_ratio_self (x : String) :
    calculate_diff_ratio x x = 0 := by
  unfold calculate_diff_ratio
  rw [Difflib.seqRatio_self]
  ring

theorem calculate_diff_ratio_nonneg (x y : String) :
    0 ≤ calculate_diff_ratio x y := by
  have := Difflib.seqRatio_le_one (splitlines x) (splitlines y)
  unfold calculate_diff_ratio
  linarith

theorem calculate_diff_ratio_le_one (x y : String) :
    calculate_diff_ratio x y ≤ 1 := by
  have := Difflib.seqRatio_nonneg (splitlines x) (splitlines y)
  unfold calculate_diff_ratio
  linarith

/-! ## Convergence detector (`src/meld/convergence.py`)

The detector's instance state (`self._plan_history`, `self._min_rounds`,
`self._diff_threshold`) is passed explicitly; `check_convergence` returns
the updated history alongside the assessment (`add_plan` appends).
Constructor defaults: `diff_threshold = 0.05`, `min_rounds = 1`. -/

/-- `ConvergenceDetector.detect_oscillation`: with at least 3 plans in the
history, compare the newest plan with the one from 2 rounds ago; oscillating
iff their diff ratio is below `0.02`. -/
def detect_oscillation (plan_history : List String) : Bool :=
  if plan_history.length < 3 then false
  else
    decide (calculate_diff_ratio
      (plan_history.getD (plan_history.length - 1) "")
      (plan_history.getD (plan_history.length - 3) "") < 0.02)

/-- `ConvergenceDetector.check_convergence`. -/
def check_convergence (min_rounds : Nat) (diff_threshold : ℚ)
    (plan_history : List String)
    (melder_assessment : Option ConvergenceAssessment)
    (old_plan new_plan : String) (round_number : Nat) :
    ConvergenceAssessment × List String :=
  if round_number < min_rounds then
    (⟨.CONTINUING, 1, 0, 0, "Minimum rounds not reached"⟩, plan_history)
  else
    let history := plan_history ++ [new_plan]
    if detect_oscillation history then
      (⟨.OSCILLATING, 0, 0, 0,
        "Plan is oscillating between versions - needs human decision"⟩,
       history)
    else
      let diff_ratio := calculate_diff_ratio old_plan new_plan
      match melder_assessment with
      | none =>
          if diff_ratio < diff_threshold then
            (⟨.CONVERGED, 0, 0, diff_ratio,
              "Diff below threshold, no explicit assessment"⟩, history)
          else
            (⟨.CONTINUING, 1, 0, diff_ratio,
              "No explicit assessment, changes detected"⟩, history)
      | some ma =>
          if 0 < ma.open_items then
            (⟨.CONTINUING, ma.changes_made, ma.open_items, diff_ratio,
              "Open items remain: " ++ toString ma.open_items⟩, history)
          else if ma.status = .CONVERGED ∧ 0.1 < diff_ratio then
            (⟨.CONTINUING, ma.changes_made, ma.open_items, diff_ratio,
              "Melder claims convergence but diff is large"⟩, history)
          else
            (⟨ma.status, ma.changes_made, ma.open_items, diff_ratio,
              ma.rationale⟩, history)

/-! ## Advisor pool (`src/meld/advisors.py`) -/

/-- A provider adapter as seen by the pool: a stable `name` and its
`invoke` behaviour for this round's prompt.  `invoke k` is the outcome of
the `k`-th invocation of `adapter.invoke(prompt)` (counting from 0);
`.error` models an unexpected exception escaping the task (caught by the
`asyncio.gather(..., return_exceptions=True)` fan-in). -/
structure Adapter where
  name : String
  invoke : Nat → Except String AdvisorResult

/-- `AdvisorPool.RETRY_CONFIG`: `(max_retries, backoff)` per error type;
`none` for error types that are not retried. -/
def RETRY_CONFIG : ProviderErrorType → Option (Nat × ℚ)
  | .TIMEOUT => some (1, 0)
  | .RATE_LIMITED => some (3, 1.0)
  | .NETWORK_ERROR => some (3, 3.0)
  | _ => none

/-- Observable outcome of `_invoke_with_retry`: the returned result, the
number of `invoke` calls made, and the backoff sleeps performed, in
order. -/
structure RetryTrace where
  result : AdvisorResult
  calls : Nat
  sleeps : List ℚ
deriving DecidableEq, Repr

/-- The `for attempt in range(max_retries)` loop of `_invoke_with_retry`:
sleep `backoff * (attempt + 1)`, re-invoke, return on success, and return
the last failure when the loop exhausts. -/
def retry_loop (ad : Adapter) (round_number : Nat) (backoff : ℚ) :
    Nat → Nat → AdvisorResult → Nat → List ℚ → Except String RetryTrace
  | 0, _, last, calls, sleeps => .ok ⟨last, calls, sleeps⟩
  | remaining + 1, attempt, _, calls, sleeps =>
      let sleeps' := sleeps ++ [backoff * (attempt + 1)]
      match ad.invoke calls with
      | .error e => .error e
      | .ok r =>
          let r' := { r with round_number := round_number }
          if r'.success then .ok ⟨r', calls + 1, sleeps'⟩
          else retry_loop ad round_number backoff remaining (attempt + 1) r'
            (calls + 1) sleeps'

/-- `AdvisorPool._invoke_with_retry` (the status-change notifications are
an observability hook only and are not modelled). -/
def invoke_with_retry (ad : Adapter) (round_number : Nat) :
    Except String RetryTrace :=
  match ad.invoke 0 with
  | .error e => .error e
  | .ok r =>
      let r' := { r with round_number := round_number }
      if r'.success then .ok ⟨r', 1, []⟩
      else
        match r'.error with
        | some err =>
            match RETRY_CONFIG err.error_type with
            | some (max_retries, backoff) =>
                retry_loop ad round_number backoff max_retries 0 r' 1 []
            | none => .ok ⟨r', 1, []⟩
        | none => .ok ⟨r', 1, []⟩

/-- `AdvisorPool.collect_feedback`: fan a single prompt out to all
registered adapters and fan the results back in, in registration order
(`asyncio.gather` preserves task order); an exception escaping the task at
position `i` is converted to a failed `AdvisorResult` carrying the `i`-th
adapter's name. -/
def collect_feedback (adapters : List Adapter) (round_number : Nat) :
    List AdvisorResult :=
  adapters.map (fun ad =>
    match invoke_with_retry ad round_number with
    | .ok t => t.result
    | .error _ =>
        { provider := ad.name, success := false,
          round_number := round_number })

/-- `AdvisorPool.get_participating_advisors`: the names of the successful
results, preserving order. -/
def get_participating_advisors (results : List AdvisorResult) :
    List String :=
  (results.filter (fun r => r.success)).map (fun r => r.provider)

/-! ## Melder (`src/meld/melder.py`) -/

/-- `MelderResult` — result from a melder operation. -/
structure MelderResult where
  plan : String
  convergence : Option ConvergenceAssessment := none
  decision_log : String := ""
  raw_output : String := ""
deriving DecidableEq, Repr

/-- The `RuntimeError` raised by the Melder on adapter failure: it carries
only the interpolated message string. -/
structure MelderError where
  message : String
deriving DecidableEq, Repr

/-- Rendering of `result.error` inside the Melder's f-strings
(`f"Melder failed: {result.error}"`), a function of the error object
alone; the dataclass `repr` is modelled up to the fields carried in this
embedding. -/
def provider_error_str : Option ProviderError → String
  | none => "None"
  | some e =>
      "ProviderError(error_type=" ++ toString (repr e.error_type) ++
      ", message=" ++ toString (repr e.message) ++
      ", provider=" ++ toString (repr e.provider) ++
      ", retryable=" ++ toString (repr e.retryable) ++ ")"

/-- The error raised by `Melder.generate_initial_plan` when its adapter
invocation fails: `RuntimeError(f"Melder failed: {result.error}")`. -/
def melder_initial_error (inv : AdvisorResult) : MelderError :=
  ⟨"Melder failed: " ++ provider_error_str inv.error⟩

/-- The error raised by `Melder.synthesize_feedback` when its adapter
invocation fails:
`RuntimeError(f"Melder synthesis failed: {result.error}")`. -/
def melder_synthesis_error (inv : AdvisorResult) : MelderError :=
  ⟨"Melder synthesis failed: " ++ provider_error_str inv.error⟩

/-- The field view of a parsed JSON object as `_extract_convergence` reads
it (`data.get("STATUS", "CONTINUING")`, `data.get("CHANGES_MADE", 0)`,
`data.get("OPEN_ITEMS", 0)`, `data.get("RATIONALE", "")`). -/
structure JsonFields where
  STATUS : Option String := none
  CHANGES_MADE : Option ℤ := none
  OPEN_ITEMS : Option ℤ := none
  RATIONALE : Option String := none

/-- Occurrence of `needle` as a contiguous substring of `hay` (Python's
`needle in hay` on strings), on character lists. -/
def list_contains (needle : List Char) : List Char → Bool
  | [] => needle.isEmpty
  | c :: rest => needle.isPrefixOf (c :: rest) || list_contains needle rest

/-- Python `needle in hay` for strings. -/
def str_contains (hay needle : String) : Bool :=
  list_contains needle.data hay.data

/-- Python `str.upper()` (all characters involved here are ASCII),
character by character. -/
def str_upper (s : String) : String :=
  String.mk (s.data.map Char.toUpper)

/-- The inline-marker fallback at the end of `_extract_convergence`:
`if "STATUS: CONVERGED" in output.upper()`. -/
def inline_convergence (output : String) : Option ConvergenceAssessment :=
  if str_contains (str_upper output) "STATUS: CONVERGED" then
    some ⟨.CONVERGED, 0, 0, 0, ""⟩
  else none

/-- `Melder._extract_convergence`.  The stdlib calls are modelled as
oracles: `find_json output` is the group captured by
`re.search(r"```json\s*(\{.*?\})\s*```", output, re.DOTALL)` (if any), and
`parse_json block` is the object produced by `json.loads` (`none` models
`json.JSONDecodeError`, which the code swallows with `pass`). -/
def extract_convergence (find_json : String → Option String)
    (parse_json : String → Option JsonFields) (output : String) :
    Option ConvergenceAssessment :=
  match find_json output with
  | some block =>
      match parse_json block with
      | some data =>
          some ⟨if str_upper (data.STATUS.getD "CONTINUING") = "CONVERGED"
              then ConvergenceStatus.CONVERGED
              else ConvergenceStatus.CONTINUING,
            data.CHANGES_MADE.getD 0, data.OPEN_ITEMS.getD 0, 0,
            data.RATIONALE.getD ""⟩
      | none => inline_convergence output
  | none => inline_convergence output

/-! ## Orchestrator (`src/meld/orchestrator.py`)

`Orchestrator.run` is modelled for the convergence loop proper: preflight
checks, session persistence, printing and output formatting are external
I/O and not modelled, and `MeldResult.session_id` / `output_path` are
omitted for the same reason.  The Melder is consumed through its outcome:
`gen_initial` is the result of `generate_initial_plan` and
`synth r plan results` the result of `synthesize_feedback` at round `r`
(an `.error` is the `RuntimeError` raised by the Melder, which `run` does
not catch).  `interrupted r` is the value of `self._interrupted` read at
the top of round `r`. -/

/-- `MeldResult` (modelled fields). -/
structure MeldResult where
  success : Bool
  plan : String
  rounds_completed : Nat
  converged : Bool
  advisors_participated : List String
deriving DecidableEq, Repr

/-- How `run`'s round loop terminated: which `break` (if any) ended the
`for round_num in range(1, max_rounds + 1)` loop — an observation of the
control flow, recorded alongside the result. -/
inductive TerminalKind where
  | converged
  | oscillating
  | maxRounds
  | cancelled
deriving DecidableEq, Repr

/-- Observable trace of a run: the outcome, how the loop terminated
(`none` when a Melder error aborted the run), and the rounds at which the
synthesizer was invoked, in order. -/
structure RunTrace where
  outcome : Except MelderError MeldResult
  terminal : Option TerminalKind
  synth_rounds : List Nat
deriving Repr

/-- `all_participants.update(participants)` on a Python `set`, modelled as
insertion-ordered union without duplicates (no claim depends on the set's
iteration order). -/
def set_update (acc xs : List String) : List String :=
  xs.foldl (fun acc x => if x ∈ acc then acc else acc ++ [x]) acc

/-- The round loop of `Orchestrator.run` over the remaining round numbers,
threading the current plan, the detector history, the accumulated
participant set and `final_round`. -/
def run_loop (adapters : List Adapter)
    (synth : Nat → String → List AdvisorResult →
      Except MelderError MelderResult)
    (interrupted : Nat → Bool) (min_rounds : Nat) (diff_threshold : ℚ) :
    List Nat → String → List String → List String → Nat → RunTrace
  | [], plan, _, parts, final_round =>
      ⟨.ok ⟨true, plan, final_round, false, parts⟩, some .maxRounds, []⟩
  | r :: rest, plan, history, parts, final_round =>
      if interrupted r then
        ⟨.ok ⟨true, plan, final_round, false, parts⟩, some .cancelled, []⟩
      else
        let results := collect_feedback adapters r
        let parts' := set_update parts (get_participating_advisors results)
        match synth r plan results with
        | .error e => ⟨.error e, none, [r]⟩
        | .ok mres =>
            let conv := (check_convergence min_rounds diff_threshold history
              mres.convergence plan mres.plan r).1
            let history' := (check_convergence min_rounds diff_threshold
              history mres.convergence plan mres.plan r).2
            if conv.status = .CONVERGED then
              ⟨.ok ⟨true, mres.plan, r, true, parts'⟩, some .converged, [r]⟩
            else if conv.status = .OSCILLATING then
              ⟨.ok ⟨true, mres.plan, r, false, parts'⟩, some .oscillating,
                [r]⟩
            else
              let t := run_loop adapters synth interrupted min_rounds
                diff_threshold rest mres.plan history' parts' r
              ⟨t.outcome, t.terminal, r :: t.synth_rounds⟩

/-- `Orchestrator.run` (modelled portion): generate the initial plan, then
drive the round loop for `round_num in range(1, max_rounds + 1)` with a
`ConvergenceDetector()` built with its defaults. -/
def run (adapters : List Adapter)
    (gen_initial : Except MelderError MelderResult)
    (synth : Nat → String → List AdvisorResult →
      Except MelderError MelderResult)
    (interrupted : Nat → Bool) (max_rounds : Nat) : RunTrace :=
  match gen_initial with
  | .error e => ⟨.error e, none, []⟩
  | .ok m0 =>
      run_loop adapters synth interrupted 1 0.05
        (List.range' 1 max_rounds) m0.plan [] [] 0

/-! ## Claim theorems

The concrete instances are settled by kernel evaluation; the arithmetic
kernels of `ℚ` are made unfoldable for that purpose. -/

section ClaimEvaluation

attribute [local semireducible] Rat.sub Rat.add Rat.mul Rat.inv
  Rat.ofScientific Difflib.matchingTotal

/-- **C8.** For every text `x`, `calculate_diff_ratio(x, x)` equals `0.0`,
and for every pair of texts the result of `calculate_diff_ratio` lies in
the closed interval `[0, 1]`. -/
theorem C8_diff_ratio_identity_and_bounds :
    (∀ x : String, calculate_diff_ratio x x = 0) ∧
    (∀ x y : String, 0 ≤ calculate_diff_ratio x y ∧
      calculate_diff_ratio x y ≤ 1) :=
  ⟨fun x => calculate_diff_ratio_self x,
    fun x y => ⟨calculate_diff_ratio_nonneg x y,
      calculate_diff_ratio_le_one x y⟩⟩

/-- **C6.** For every combination of synthesizer assessment (or none), old
plan, new plan, and detector state, `check_convergence` called with
`round_number < min_rounds` returns an assessment with status
`CONTINUING`. -/
theorem C6_min_rounds_floor (min_rounds : Nat) (diff_threshold : ℚ)
    (plan_history : List String)
    (melder_assessment : Option ConvergenceAssessment)
    (old_plan new_plan : String) (round_number : Nat)
    (h : round_number < min_rounds) :
    (check_convergence min_rounds diff_threshold plan_history
      melder_assessment old_plan new_plan round_number).1.status =
      ConvergenceStatus.CONTINUING := by
  unfold check_convergence
  rw [if_pos h]

/-- Witness for **C6**: a concrete call below the floor (round 0 with
`min_rounds = 1`, a `CONVERGED` self-report, identical plans). -/
theorem C6_min_rounds_floor_witness :
    (0 : Nat) < 1 ∧
    (check_convergence 1 0.05 []
      (some ⟨ConvergenceStatus.CONVERGED, 0, 0, 0, ""⟩) "Plan A" "Plan A"
      0).1.status = ConvergenceStatus.CONTINUING :=
  ⟨by decide,
    C6_min_rounds_floor 1 0.05 []
      (some ⟨ConvergenceStatus.CONVERGED, 0, 0, 0, ""⟩) "Plan A" "Plan A" 0
      (by decide)⟩

/-- **C7.** `detect_oscillation` returns `false` whenever the plan history
has fewer than 3 plans; with at least 3 plans it returns `true` iff the
diff ratio between the newest plan and the plan two positions earlier is
below `0.02`; in particular an `A, B, A` history yields `true` and an
`A, B, C` history with pairwise diff ratios above `0.02` yields
`false`. -/
theorem C7_detect_oscillation :
    (∀ h : List String, h.length < 3 → detect_oscillation h = false) ∧
    (∀ h : List String, 3 ≤ h.length →
      (detect_oscillation h = true ↔
        calculate_diff_ratio (h.getD (h.length - 1) "")
          (h.getD (h.length - 3) "") < 0.02)) ∧
    detect_oscillation
      ["Plan version A with specific content",
       "Plan version B with different content",
       "Plan version A with specific content"] = true ∧
    detect_oscillation ["alpha", "beta", "gamma"] = false := by
  refine ⟨?_, ?_, ?_, ?_⟩
  · intro h hlt
    unfold detect_oscillation
    rw [if_pos hlt]
  · intro h hge
    unfold detect_oscillation
    rw [if_neg (by omega)]
    exact decide_eq_true_iff
  · unfold detect_oscillation
    rw [if_neg (by simp), decide_eq_true_eq]
    show calculate_diff_ratio "Plan version A with specific content"
      "Plan version A with specific content" < 0.02
    rw [calculate_diff_ratio_self]
    norm_num
  · decide

/-- Witness for **C7**: the hypothesis-bearing conjuncts applied at
concrete histories. -/
theorem C7_detect_oscillation_witness :
    detect_oscillation ["only", "two"] = false ∧
    (detect_oscillation ["a", "b", "a"] = true ↔
      calculate_diff_ratio "a" "a" < 0.02) :=
  ⟨C7_detect_oscillation.1 ["only", "two"] (by decide),
    C7_detect_oscillation.2.1 ["a", "b", "a"] (by decide)⟩

/-- **C3 counterexample.** `check_convergence` with `open_items > 0` and
`round_number ≥ min_rounds` does *not* always return `CONTINUING`: the
oscillation check runs first.  With detector history `["a", "b"]`, new
plan `"a"` (so the updated history is the cycle `a, b, a`), a self-report
with `open_items = 1`, and `round_number = 1 ≥ min_rounds = 1`, the result
is `OSCILLATING`. -/
theorem C3_counterexample :
    (check_convergence 1 0.05 ["a", "b"]
      (some ⟨ConvergenceStatus.CONVERGED, 0, 1, 0, ""⟩) "b" "a" 1).1.status
      = ConvergenceStatus.OSCILLATING ∧
    (check_convergence 1 0.05 ["a", "b"]
      (some ⟨ConvergenceStatus.CONVERGED, 0, 1, 0, ""⟩) "b" "a" 1).1.status
      ≠ ConvergenceStatus.CONTINUING := by
  constructor <;> decide

/-- **C3 (amended).** For every synthesizer assessment with
`open_items > 0`, every pair of old/new plans, and every round number at
or above `min_rounds`, `check_convergence` returns `CONTINUING` — even
when the reported status is `CONVERGED` — *provided the updated plan
history does not trigger oscillation detection*. -/
theorem C3_open_items_veto (min_rounds : Nat) (diff_threshold : ℚ)
    (plan_history : List String) (ma : ConvergenceAssessment)
    (old_plan new_plan : String) (round_number : Nat)
    (hopen : 0 < ma.open_items) (hround : min_rounds ≤ round_number)
    (hosc : detect_oscillation (plan_history ++ [new_plan]) = false) :
    (check_convergence min_rounds diff_threshold plan_history (some ma)
      old_plan new_plan round_number).1.status =
      ConvergenceStatus.CONTINUING := by
  unfold check_convergence
  rw [if_neg (by omega)]
  simp only [hosc, Bool.false_eq_true, if_false, if_pos hopen]

/-- Witness for **C3 (amended)**: fresh detector, `CONVERGED` self-report
with one open item, identical plans, round 1. -/
theorem C3_open_items_veto_witness :
    (0 : ℤ) < 1 ∧ (1 : Nat) ≤ 1 ∧
    detect_oscillation ([] ++ ["Plan A"]) = false ∧
    (check_convergence 1 0.05 []
      (some ⟨ConvergenceStatus.CONVERGED, 0, 1, 0, ""⟩) "Plan A" "Plan A"
      1).1.status = ConvergenceStatus.CONTINUING :=
  ⟨by decide, by decide, by decide,
    C3_open_items_veto 1 0.05 []
      ⟨ConvergenceStatus.CONVERGED, 0, 1, 0, ""⟩ "Plan A" "Plan A" 1
      (by decide) (by decide) (by decide)⟩

/-! ### Advisor-pool helper lemmas -/

/-- The provider-adapter contract of §4.1 / `providers/base.py`:
`invoke` returns a populated classified error exactly on failure, and
leaves `feedback` at its default on failure (every failure constructor in
`ProviderAdapter.invoke` sets `error` and leaves `feedback` empty; the
success path sets `feedback` and leaves `error` at `None`). -/
def adapter_contract (ad : Adapter) : Prop :=
  ∀ n r, ad.invoke n = .ok r →
    (r.success = true → r.error = none) ∧
    (r.success = false → r.error.isSome ∧ r.feedback = "")

/-- The sleeps performed by retries `att, att+1, …, att+m-1`:
`backoff * (attempt + 1)` each. -/
def backoffSleeps (bo : ℚ) (att m : Nat) : List ℚ :=
  (List.range' att m).map (fun k : Nat => bo * ((k : ℚ) + 1))

theorem backoffSleeps_zero (bo : ℚ) (att : Nat) :
    backoffSleeps bo att 0 = [] := rfl

theorem backoffSleeps_succ (bo : ℚ) (att m : Nat) :
    backoffSleeps bo att (m + 1) =
      bo * ((att : ℚ) + 1) :: backoffSleeps bo (att + 1) m := by
  unfold backoffSleeps
  rw [List.range'_succ]
  rfl

theorem backoffSleeps_pairwise (bo : ℚ) (hbo : 0 < bo) (att m : Nat) :
    List.Pairwise (fun x y => x < y) (backoffSleeps bo att m) := by
  unfold backoffSleeps
  refine List.Pairwise.map _ ?_ (List.pairwise_lt_range' att m 1 (by omega))
  intro a b hab
  have : (a : ℚ) + 1 < (b : ℚ) + 1 := by
    have : (a : ℚ) < (b : ℚ) := by exact_mod_cast hab
    linarith
  exact mul_lt_mul_of_pos_left this hbo

/-- Trace of the retry loop: call/sleep bookkeeping, early stop, and the
provenance of the returned result. -/
theorem retry_loop_trace (ad : Adapter) (rd : Nat) (bo : ℚ) :
    ∀ (rem att : Nat) (last : AdvisorResult) (calls : Nat)
      (sleeps : List ℚ) (t : RetryTrace),
      retry_loop ad rd bo rem att last calls sleeps = .ok t →
      ∃ m, m ≤ rem ∧ t.calls = calls + m ∧
        t.sleeps = sleeps ++ backoffSleeps bo att m ∧
        (∀ k, k + 1 < m →
          ∃ rk, ad.invoke (calls + k) = .ok rk ∧ rk.success = false) ∧
        (t.result = last ∨
          ∃ n r, ad.invoke n = .ok r ∧
            t.result = { r with round_number := rd })
  | 0, att, last, calls, sleeps, t, h => by
      rw [retry_loop] at h
      injection h with h
      subst h
      refine ⟨0, by omega, rfl, ?_,
        fun k hk => absurd hk (by omega), Or.inl rfl⟩
      rw [backoffSleeps_zero]
      simp
  | rem + 1, att, last, calls, sleeps, t, h => by
      rw [retry_loop] at h
      cases hinv : ad.invoke calls with
      | error e => rw [hinv] at h; exact absurd h (by simp)
      | ok r =>
          rw [hinv] at h
          dsimp only at h
          by_cases hs : ({ r with round_number := rd } :
              AdvisorResult).success = true
          · rw [if_pos hs] at h
            injection h with h
            subst h
            refine ⟨1, by omega, rfl, ?_, ?_, ?_⟩
            · rw [backoffSleeps_succ, backoffSleeps_zero]
            · intro k hk
              omega
            · exact Or.inr ⟨calls, r, hinv, rfl⟩
          · rw [if_neg hs] at h
            obtain ⟨m, hm, hcalls, hsleeps, hfail, hres⟩ :=
              retry_loop_trace ad rd bo rem (att + 1) _ (calls + 1) _ t h
            refine ⟨m + 1, by omega, by omega, ?_, ?_, ?_⟩
            · rw [hsleeps, backoffSleeps_succ, List.append_assoc]
              rfl
            · intro k hk
              cases k with
              | zero =>
                  refine ⟨r, hinv, ?_⟩
                  revert hs
                  cases r.success <;> simp
              | succ k' =>
                  obtain ⟨rk, hrk, hrks⟩ := hfail k' (by omega)
                  exact ⟨rk, by rw [← hrk]; congr 1; omega, hrks⟩
            · rcases hres with hres | ⟨n, r', hr', hres⟩
              · exact Or.inr ⟨calls, r, hinv, hres⟩
              · exact Or.inr ⟨n, r', hr', hres⟩

/-- Unfolding `_invoke_with_retry` when the first invocation fails with a
retryable error type. -/
theorem invoke_with_retry_retryable (ad : Adapter) (rd : Nat)
    (r₀ : AdvisorResult) (err : ProviderError) (mr : Nat) (bo : ℚ)
    (hinv : ad.invoke 0 = .ok r₀) (hsuc : r₀.success = false)
    (herr : r₀.error = some err)
    (hcfg : RETRY_CONFIG err.error_type = some (mr, bo)) :
    invoke_with_retry ad rd =
      retry_loop ad rd bo mr 0 { r₀ with round_number := rd } 1 [] := by
  unfold invoke_with_retry
  rw [hinv]
  dsimp only
  rw [if_neg (by simp [hsuc]),
    show ({ r₀ with round_number := rd } : AdvisorResult).error = some err
      from herr]
  dsimp only
  rw [hcfg]

/-- Unfolding `_invoke_with_retry` when the first invocation fails with a
non-retryable error type. -/
theorem invoke_with_retry_no_retry (ad : Adapter) (rd : Nat)
    (r₀ : AdvisorResult) (err : ProviderError)
    (hinv : ad.invoke 0 = .ok r₀) (hsuc : r₀.success = false)
    (herr : r₀.error = some err)
    (hcfg : RETRY_CONFIG err.error_type = none) :
    invoke_with_retry ad rd =
      .ok ⟨{ r₀ with round_number := rd }, 1, []⟩ := by
  unfold invoke_with_retry
  rw [hinv]
  dsimp only
  rw [if_neg (by simp [hsuc]),
    show ({ r₀ with round_number := rd } : AdvisorResult).error = some err
      from herr]
  dsimp only
  rw [hcfg]

/-- Every result returned by `_invoke_with_retry` is (up to the
`round_number` stamp) a result some invocation of the adapter returned. -/
theorem invoke_with_retry_from_invoke (ad : Adapter) (rd : Nat)
    (t : RetryTrace) (h : invoke_with_retry ad rd = .ok t) :
    ∃ n r, ad.invoke n = .ok r ∧
      t.result = { r with round_number := rd } := by
  unfold invoke_with_retry at h
  cases hinv : ad.invoke 0 with
  | error e => rw [hinv] at h; exact absurd h (by simp)
  | ok r₀ =>
      rw [hinv] at h
      dsimp only at h
      by_cases hs : ({ r₀ with round_number := rd } :
          AdvisorResult).success = true
      · rw [if_pos hs] at h
        injection h with h
        exact ⟨0, r₀, hinv, by rw [← h]⟩
      · rw [if_neg hs] at h
        cases herr : ({ r₀ with round_number := rd } :
            AdvisorResult).error with
        | none =>
            rw [herr] at h
            dsimp only at h
            injection h with h
            refine ⟨0, r₀, hinv, ?_⟩
            rw [← h, show r₀.error = none from herr]
        | some err =>
            rw [herr] at h
            dsimp only at h
            cases hcfg : RETRY_CONFIG err.error_type with
            | none =>
                rw [hcfg] at h
                dsimp only at h
                injection h with h
                refine ⟨0, r₀, hinv, ?_⟩
                rw [← h, show r₀.error = some err from herr]
            | some cfg =>
                obtain ⟨mr, bo⟩ := cfg
                rw [hcfg] at h
                dsimp only at h
                obtain ⟨m, -, -, -, -, hres⟩ :=
                  retry_loop_trace ad rd bo mr 0 _ 1 [] t h
                rcases hres with hres | hres
                · refine ⟨0, r₀, hinv, ?_⟩
                  rw [hres, show r₀.error = some err from herr]
                · exact hres

/-- Contract transfer: under the adapter contract, the result returned by
`_invoke_with_retry` has a populated error exactly on failure and empty
feedback on failure. -/
theorem invoke_with_retry_contract (ad : Adapter) (rd : Nat)
    (hc : adapter_contract ad) (t : RetryTrace)
    (h : invoke_with_retry ad rd = .ok t) :
    (t.result.success = true → t.result.error = none) ∧
    (t.result.success = false →
      t.result.error.isSome ∧ t.result.feedback = "") := by
  obtain ⟨n, r, hr, hres⟩ := invoke_with_retry_from_invoke ad rd t h
  obtain ⟨h1, h2⟩ := hc n r hr
  rw [hres]
  exact ⟨fun hs => by rw [show ({ r with round_number := rd } :
      AdvisorResult).error = r.error from rfl]; exact h1 hs,
    fun hs => by
      obtain ⟨ha, hb⟩ := h2 hs
      exact ⟨ha, hb⟩⟩

/-- **C2.** `collect_feedback` returns exactly one outcome per registered
advisor, in registration order: the `i`-th outcome is the `i`-th adapter's
retried result, and an exception escaping the `i`-th task is converted
into a failed outcome carrying the `i`-th adapter's name. -/
theorem C2_fan_in (ads : List Adapter) (rd : Nat) :
    (collect_feedback ads rd).length = ads.length ∧
    ∀ (i : Nat) (hi : i < ads.length)
      (hlen : i < (collect_feedback ads rd).length),
      (∀ e, invoke_with_retry (ads.get ⟨i, hi⟩) rd = .error e →
        (collect_feedback ads rd).get ⟨i, hlen⟩ =
          { provider := (ads.get ⟨i, hi⟩).name, success := false,
            round_number := rd }) ∧
      (∀ t, invoke_with_retry (ads.get ⟨i, hi⟩) rd = .ok t →
        (collect_feedback ads rd).get ⟨i, hlen⟩ = t.result) := by
  refine ⟨by simp [collect_feedback], ?_⟩
  intro i hi hlen
  have hget : (collect_feedback ads rd).get ⟨i, hlen⟩ =
      (match invoke_with_retry (ads.get ⟨i, hi⟩) rd with
        | .ok t => t.result
        | .error _ =>
            { provider := (ads.get ⟨i, hi⟩).name, success := false,
              round_number := rd }) := by
    unfold collect_feedback
    exact List.get_map _
  constructor
  · intro e he
    rw [hget, he]
  · intro t ht
    rw [hget, ht]

/-- A contract-satisfying adapter that always succeeds. -/
def good_adapter : Adapter :=
  { name := "claude",
    invoke := fun _ => .ok
      { provider := "claude", success := true,
        feedback := "Claude feedback" } }

/-- An adapter whose task raises an unexpected exception on every
invocation. -/
def raising_adapter : Adapter :=
  { name := "gemini", invoke := fun _ => .error "boom" }

/-- Witness for **C2**: a two-adapter pool whose second task raises; the
fan-in yields two outcomes in order, the second converted to a failed
outcome named after the second adapter. -/
theorem C2_fan_in_witness :
    (collect_feedback [good_adapter, raising_adapter] 1).length = 2 ∧
    (collect_feedback [good_adapter, raising_adapter] 1).get
        ⟨1, by simp [collect_feedback]⟩ =
      { provider := "gemini", success := false, round_number := 1 } := by
  refine ⟨(C2_fan_in [good_adapter, raising_adapter] 1).1.trans (by simp),
    ?_⟩
  exact ((C2_fan_in [good_adapter, raising_adapter] 1).2 1 (by simp)
    (by simp [collect_feedback])).1 "boom" rfl

/-- **C4.** Per advisor per round: a first failure with a non-retryable
error kind (`CLI_NOT_FOUND`, `AUTH_FAILED`, `PARSE_ERROR`, `UNKNOWN`)
means the advisor is invoked exactly once; a first failure with `TIMEOUT`
means at most 2 invocations; a first failure with `RATE_LIMITED` or
`NETWORK_ERROR` means at most 4 invocations, with strictly increasing
backoff sleeps, and every invocation before the last one failed — retries
stop at the first success. -/
theorem C4_retry_policy (ad : Adapter) (rd : Nat) :
    (∀ r₀ err, ad.invoke 0 = .ok r₀ → r₀.success = false →
      r₀.error = some err →
      (err.error_type = .CLI_NOT_FOUND ∨ err.error_type = .AUTH_FAILED ∨
        err.error_type = .PARSE_ERROR ∨ err.error_type = .UNKNOWN) →
      invoke_with_retry ad rd =
        .ok ⟨{ r₀ with round_number := rd }, 1, []⟩) ∧
    (∀ r₀ err t, ad.invoke 0 = .ok r₀ → r₀.success = false →
      r₀.error = some err → err.error_type = .TIMEOUT →
      invoke_with_retry ad rd = .ok t → t.calls ≤ 2) ∧
    (∀ r₀ err t, ad.invoke 0 = .ok r₀ → r₀.success = false →
      r₀.error = some err →
      (err.error_type = .RATE_LIMITED ∨ err.error_type = .NETWORK_ERROR) →
      invoke_with_retry ad rd = .ok t →
      t.calls ≤ 4 ∧ List.Pairwise (fun x y => x < y) t.sleeps ∧
      (∀ m, m + 1 < t.calls →
        ∃ rm, ad.invoke m = .ok rm ∧ rm.success = false)) := by
  have main : ∀ (r₀ : AdvisorResult) (err : ProviderError)
      (t : RetryTrace) (mr : Nat) (bo : ℚ), 0 < bo ∨ mr ≤ 1 →
      ad.invoke 0 = .ok r₀ → r₀.success = false → r₀.error = some err →
      RETRY_CONFIG err.error_type = some (mr, bo) →
      invoke_with_retry ad rd = .ok t →
      t.calls ≤ 1 + mr ∧ List.Pairwise (fun x y => x < y) t.sleeps ∧
      (∀ m, m + 1 < t.calls →
        ∃ rm, ad.invoke m = .ok rm ∧ rm.success = false) := by
    intro r₀ err t mr bo hbo hinv hsuc herr hcfg ht
    rw [invoke_with_retry_retryable ad rd r₀ err mr bo hinv hsuc herr
      hcfg] at ht
    obtain ⟨m, hm, hcalls, hsleeps, hfail, -⟩ :=
      retry_loop_trace ad rd bo mr 0 _ 1 [] t ht
    refine ⟨by omega, ?_, ?_⟩
    · rw [hsleeps, List.nil_append]
      rcases hbo with hbo | hbo
      · exact backoffSleeps_pairwise bo hbo 0 m
      · have hm1 : m ≤ 1 := by omega
        interval_cases m
        · exact List.Pairwise.nil
        · rw [backoffSleeps_succ, backoffSleeps_zero]
          exact List.pairwise_singleton _ _
    · intro k hk
      cases k with
      | zero => exact ⟨r₀, hinv, hsuc⟩
      | succ k' =>
          obtain ⟨rk, hrk, hrks⟩ := hfail k' (by omega)
          refine ⟨rk, ?_, hrks⟩
          rw [← hrk]
          congr 1
          omega
  refine ⟨?_, ?_, ?_⟩
  · intro r₀ err hinv hsuc herr hkind
    have hcfg : RETRY_CONFIG err.error_type = none := by
      rcases hkind with h | h | h | h <;> rw [h] <;> rfl
    exact invoke_with_retry_no_retry ad rd r₀ err hinv hsuc herr hcfg
  · intro r₀ err t hinv hsuc herr hkind ht
    have := main r₀ err t 1 0 (Or.inr (by omega)) hinv hsuc herr
      (by rw [hkind]; rfl) ht
    omega
  · intro r₀ err t hinv hsuc herr hkind ht
    rcases hkind with hk | hk
    · have := main r₀ err t 3 1.0 (Or.inl (by norm_num)) hinv hsuc herr
        (by rw [hk]; rfl) ht
      exact ⟨by omega, this.2.1, this.2.2⟩
    · have := main r₀ err t 3 3.0 (Or.inl (by norm_num)) hinv hsuc herr
        (by rw [hk]; rfl) ht
      exact ⟨by omega, this.2.1, this.2.2⟩

/-- An adapter that fails with `RATE_LIMITED` on its first two
invocations and succeeds on the third. -/
def rate_limited_adapter : Adapter :=
  { name := "claude",
    invoke := fun n =>
      if n < 2 then
        .ok
          { provider := "claude", success := false,
            error := some
              { error_type := .RATE_LIMITED, message := "Rate limited",
                provider := "claude", retryable := true } }
      else
        .ok
          { provider := "claude", success := true,
            feedback := "Eventually succeeded" } }

/-- An adapter that always fails with `AUTH_FAILED`. -/
def auth_failed_adapter : Adapter :=
  { name := "openai",
    invoke := fun _ => .ok
      { provider := "openai", success := false,
        error := some
          { error_type := .AUTH_FAILED, message := "Auth failed",
            provider := "openai" } } }

/-- Witness for **C4**: the non-retryable clause applied to an
`AUTH_FAILED` adapter (exactly one call), and the rate-limited clause
applied to an adapter that succeeds on its third invocation. -/
theorem C4_retry_policy_witness :
    invoke_with_retry auth_failed_adapter 1 =
      .ok ⟨{ provider := "openai", success := false,
             error := some
               { error_type := .AUTH_FAILED, message := "Auth failed",
                 provider := "openai" },
             round_number := 1 }, 1, []⟩ ∧
    ∃ t, invoke_with_retry rate_limited_adapter 1 = .ok t ∧
      t.calls ≤ 4 ∧ List.Pairwise (fun x y => x < y) t.sleeps := by
  refine ⟨(C4_retry_policy auth_failed_adapter 1).1 _ _ rfl rfl rfl
    (Or.inr (Or.inl rfl)), _, rfl, ?_, ?_⟩
  · exact ((C4_retry_policy rate_limited_adapter 1).2.2 _ _ _ rfl rfl rfl
      (Or.inl rfl) rfl).1
  · exact ((C4_retry_policy rate_limited_adapter 1).2.2 _ _ _ rfl rfl rfl
      (Or.inl rfl) rfl).2.1

/-- **C1 counterexample.**  An outcome synthesized by the fan-in from an
unexpected exception has `success = False` but *no* populated error: the
conversion in `collect_feedback` builds
`AdvisorResult(provider=..., success=False, round_number=...)`, leaving
`error` at its default `None` — so "a classified error is present iff
the success flag is false" fails on exactly the outcomes the claim calls
out. -/
theorem C1_counterexample :
    ¬ (∀ r ∈ collect_feedback [raising_adapter] 1,
        (r.error.isSome = true ↔ r.success = false)) := by
  intro h
  have := (h { provider := "gemini", success := false, round_number := 1 }
    (by rw [show collect_feedback [raising_adapter] 1 =
      [{ provider := "gemini", success := false, round_number := 1 }]
      from rfl]; exact List.mem_singleton.mpr rfl)).mpr rfl
  simp at this

/-- **C1 (amended).**  For outcomes obtained from an adapter invocation
(adapters satisfying the provider contract of `providers/base.py`),
exactly one of `feedback` / `error` is populated: `error` is `None` on
success and populated on failure, and `feedback` is empty on failure.
Outcomes synthesized from unexpected exceptions during fan-in, however,
carry `success = False` with *no* classified error and empty feedback. -/
theorem C1_outcome_exclusivity (ads : List Adapter) (rd i : Nat)
    (hc : ∀ ad ∈ ads, adapter_contract ad) (hi : i < ads.length)
    (hlen : i < (collect_feedback ads rd).length) :
    (((collect_feedback ads rd).get ⟨i, hlen⟩).success = true →
      ((collect_feedback ads rd).get ⟨i, hlen⟩).error = none) ∧
    (((collect_feedback ads rd).get ⟨i, hlen⟩).success = false →
      ((collect_feedback ads rd).get ⟨i, hlen⟩).feedback = "") ∧
    (∀ t, invoke_with_retry (ads.get ⟨i, hi⟩) rd = .ok t →
      ((collect_feedback ads rd).get ⟨i, hlen⟩).success = false →
      ((collect_feedback ads rd).get ⟨i, hlen⟩).error.isSome = true) ∧
    (∀ e, invoke_with_retry (ads.get ⟨i, hi⟩) rd = .error e →
      (collect_feedback ads rd).get ⟨i, hlen⟩ =
        { provider := (ads.get ⟨i, hi⟩).name, success := false,
          round_number := rd }) := by
  have hmem : ads.get ⟨i, hi⟩ ∈ ads := List.get_mem ads i hi
  have hctr := hc _ hmem
  have hget : (collect_feedback ads rd).get ⟨i, hlen⟩ =
      (match invoke_with_retry (ads.get ⟨i, hi⟩) rd with
        | .ok t => t.result
        | .error _ =>
            { provider := (ads.get ⟨i, hi⟩).name, success := false,
              round_number := rd }) := by
    unfold collect_feedback
    exact List.get_map _
  cases hiwr : invoke_with_retry (ads.get ⟨i, hi⟩) rd with
  | ok t =>
      rw [hiwr] at hget
      dsimp only at hget
      obtain ⟨h1, h2⟩ := invoke_with_retry_contract _ rd hctr t hiwr
      rw [hget]
      refine ⟨h1, fun hs => (h2 hs).2, ?_, ?_⟩
      · intro t' ht' hs
        exact (h2 hs).1
      · intro e he
        exact absurd he (by simp)
  | error e =>
      rw [hiwr] at hget
      dsimp only at hget
      rw [hget]
      refine ⟨fun hs => by simp at hs, fun _ => rfl, ?_, fun _ _ => rfl⟩
      intro t' ht'
      exact absurd ht' (by simp)

/-- Witness for **C1 (amended)**: a singleton pool with a
contract-satisfying, always-succeeding adapter; the single outcome carries
no error. -/
theorem C1_outcome_exclusivity_witness :
    ((collect_feedback [good_adapter] 1).get ⟨0, by decide⟩).error =
      none := by
  have hc : ∀ ad ∈ [good_adapter], adapter_contract ad := by
    intro ad had
    rw [List.mem_singleton] at had
    subst had
    intro n r h
    injection h with h
    subst h
    exact ⟨fun _ => rfl, fun hs => by simp at hs⟩
  exact (C1_outcome_exclusivity [good_adapter] 1 0 hc (by decide)
    (by decide)).1 rfl

/-- **C10 counterexample.**  A JSON block that fails to parse does *not*
always yield "no assessment": the code falls through to the inline marker
scan.  On the output `"```json\n\x7bSTATUS: CONVERGED\x7d\n```"` the regex
captures the block `"\x7bSTATUS: CONVERGED\x7d"` (modelled by the
`find_json` oracle), `json.loads` raises `JSONDecodeError` on the unquoted
key (modelled by the `parse_json` oracle returning `none`), and the
fallback scan finds `"STATUS: CONVERGED"` in the uppercased output,
yielding a `CONVERGED` assessment rather than `none`. -/
theorem C10_counterexample :
    extract_convergence (fun _ => some "\x7bSTATUS: CONVERGED\x7d")
        (fun _ => none) "```json\n\x7bSTATUS: CONVERGED\x7d\n```" =
      some ⟨ConvergenceStatus.CONVERGED, 0, 0, 0, ""⟩ ∧
    extract_convergence (fun _ => some "\x7bSTATUS: CONVERGED\x7d")
        (fun _ => none) "```json\n\x7bSTATUS: CONVERGED\x7d\n```" ≠
      none := by
  constructor
  · decide
  · decide

/-- **C10 (amended).**  For every synthesizer output and every behaviour
of the `re.search`/`json.loads` oracles, `_extract_convergence` returns
either no assessment or an assessment whose status is `CONVERGED` or
`CONTINUING` — never `OSCILLATING` or `NEEDS_HUMAN`; and a JSON block that
fails to parse raises no error: extraction falls back to the inline
`STATUS: CONVERGED` marker scan (which yields `none` only when the marker
is absent). -/
theorem C10_extract_convergence :
    (∀ (fj : String → Option String) (pj : String → Option JsonFields)
      (out : String),
      extract_convergence fj pj out = none ∨
      ∃ a, extract_convergence fj pj out = some a ∧
        (a.status = ConvergenceStatus.CONVERGED ∨
          a.status = ConvergenceStatus.CONTINUING)) ∧
    (∀ (fj : String → Option String) (pj : String → Option JsonFields)
      (out block : String), fj out = some block → pj block = none →
      extract_convergence fj pj out = inline_convergence out) := by
  have hinline : ∀ out : String, inline_convergence out = none ∨
      ∃ a, inline_convergence out = some a ∧
        (a.status = ConvergenceStatus.CONVERGED ∨
          a.status = ConvergenceStatus.CONTINUING) := by
    intro out
    unfold inline_convergence
    by_cases hm : str_contains (str_upper out) "STATUS: CONVERGED" = true
    · exact Or.inr ⟨_, by rw [if_pos hm], Or.inl rfl⟩
    · exact Or.inl (by rw [if_neg hm])
  constructor
  · intro fj pj out
    unfold extract_convergence
    cases hfj : fj out with
    | none =>
        dsimp only
        exact hinline out
    | some block =>
        dsimp only
        cases hpj : pj block with
        | none =>
            dsimp only
            exact hinline out
        | some data =>
            dsimp only
            refine Or.inr ⟨_, rfl, ?_⟩
            by_cases hst : str_upper (data.STATUS.getD "CONTINUING") =
                "CONVERGED"
            · exact Or.inl (by dsimp only; rw [if_pos hst])
            · exact Or.inr (by dsimp only; rw [if_neg hst])
  · intro fj pj out block hfj hpj
    unfold extract_convergence
    rw [hfj]
    dsimp only
    rw [hpj]

/-- Witness for **C10 (amended)**: a parse failure on an output without
the inline marker yields no assessment. -/
theorem C10_extract_convergence_witness :
    extract_convergence (fun _ => some "not json") (fun _ => none)
      "no marker here" = none :=
  (C10_extract_convergence.2 (fun _ => some "not json") (fun _ => none)
    "no marker here" "not json" rfl rfl).trans (by decide)

/-! ### Orchestrator helper lemmas -/

/-- The observable behaviour of `Melder.generate_initial_plan`
(melder.py lines 29-46) at the orchestrator boundary: if the adapter
invocation `inv` fails, raise
`RuntimeError(f"Melder failed: {result.error}")`; otherwise return the
extracted `MelderResult` (abstracted as the oracle `m0`, since the claims
touch only failure propagation). -/
def melder_gen (inv : AdvisorResult) (m0 : MelderResult) :
    Except MelderError MelderResult :=
  if inv.success then .ok m0 else .error (melder_initial_error inv)

/-- The observable behaviour of `Melder.synthesize_feedback`
(melder.py lines 48-77) at the orchestrator boundary: `minv r` is the
adapter invocation backing the round-`r` synthesis; on failure raise
`RuntimeError(f"Melder synthesis failed: {result.error}")`, else return
the extracted result (oracle `mres r`). -/
def melder_synth (minv : Nat → AdvisorResult) (mres : Nat → MelderResult) :
    Nat → String → List AdvisorResult → Except MelderError MelderResult :=
  fun r _ _ =>
    if (minv r).success then .ok (mres r)
    else .error (melder_synthesis_error (minv r))

/-- Loop invariant for `Orchestrator.run`: whenever the loop finishes
normally, the result reports success, and it reports convergence exactly
when the loop broke out through the `CONVERGED` branch. -/
theorem run_loop_ok_inv (ads : List Adapter)
    (synth : Nat → String → List AdvisorResult →
      Except MelderError MelderResult)
    (intr : Nat → Bool) (minR : Nat) (thr : ℚ) :
    ∀ (rounds : List Nat) (plan : String) (hist parts : List String)
      (fr : Nat) (res : MeldResult),
      (run_loop ads synth intr minR thr rounds plan hist parts fr).outcome
        = .ok res →
      res.success = true ∧
      (res.converged = true ↔
        (run_loop ads synth intr minR thr rounds plan hist parts
          fr).terminal = some TerminalKind.converged)
  | [], plan, hist, parts, fr, res, h => by
      rw [run_loop] at h ⊢
      injection h with h
      subst h
      exact ⟨rfl, by simp⟩
  | r :: rest, plan, hist, parts, fr, res, h => by
      rw [run_loop] at h ⊢
      by_cases hint : intr r = true
      · rw [if_pos hint] at h ⊢
        injection h with h
        subst h
        exact ⟨rfl, by simp⟩
      · rw [if_neg hint] at h ⊢
        dsimp only at h ⊢
        generalize synth r plan (collect_feedback ads r) = sy at h ⊢
        cases sy with
        | error e =>
            dsimp only at h
            exact absurd h (by simp)
        | ok mres =>
            dsimp only at h ⊢
            by_cases hcv : (check_convergence minR thr hist
                mres.convergence plan mres.plan r).1.status =
                ConvergenceStatus.CONVERGED
            · rw [if_pos hcv] at h ⊢
              injection h with h
              subst h
              exact ⟨rfl, by simp⟩
            · rw [if_neg hcv] at h ⊢
              by_cases hos : (check_convergence minR thr hist
                  mres.convergence plan mres.plan r).1.status =
                  ConvergenceStatus.OSCILLATING
              · rw [if_pos hos] at h ⊢
                injection h with h
                subst h
                exact ⟨rfl, by simp⟩
              · rw [if_neg hos] at h ⊢
                exact run_loop_ok_inv ads synth intr minR thr rest
                  mres.plan _ _ r res h

/-- Loop invariant for synthesizer failures: the synthesizer is invoked
at most once per round, at strictly increasing rounds, and a failing
invocation aborts the whole loop with exactly the melder's error. -/
theorem run_loop_synth_fail (ads : List Adapter)
    (minv : Nat → AdvisorResult) (mres : Nat → MelderResult)
    (intr : Nat → Bool) (minR : Nat) (thr : ℚ) :
    ∀ (rounds : List Nat) (plan : String) (hist parts : List String)
      (fr : Nat),
      List.Pairwise (fun a b => a < b) rounds →
      List.Pairwise (fun a b => a < b)
        (run_loop ads (melder_synth minv mres) intr minR thr rounds plan
          hist parts fr).synth_rounds ∧
      (∀ r ∈ (run_loop ads (melder_synth minv mres) intr minR thr rounds
          plan hist parts fr).synth_rounds, r ∈ rounds) ∧
      (∀ r ∈ (run_loop ads (melder_synth minv mres) intr minR thr rounds
          plan hist parts fr).synth_rounds,
        (minv r).success = false →
        (run_loop ads (melder_synth minv mres) intr minR thr rounds plan
          hist parts fr).outcome =
          .error (melder_synthesis_error (minv r)))
  | [], plan, hist, parts, fr, hp => by
      rw [run_loop]
      exact ⟨List.Pairwise.nil, by simp, by simp⟩
  | r :: rest, plan, hist, parts, fr, hp => by
      rw [run_loop]
      by_cases hint : intr r = true
      · rw [if_pos hint]
        exact ⟨List.Pairwise.nil, by simp, by simp⟩
      · rw [if_neg hint]
        dsimp only
        cases hms : (minv r).success with
        | false =>
            rw [show melder_synth minv mres r plan
                (collect_feedback ads r) =
                .error (melder_synthesis_error (minv r)) from by
              unfold melder_synth
              rw [hms]
              exact if_neg (by simp)]
            dsimp only
            refine ⟨List.pairwise_singleton _ _, by simp, ?_⟩
            intro r' hr' _
            rw [List.mem_singleton] at hr'
            subst hr'
            rfl
        | true =>
            rw [show melder_synth minv mres r plan
                (collect_feedback ads r) = .ok (mres r) from by
              unfold melder_synth
              rw [hms]
              exact if_pos rfl]
            dsimp only
            by_cases hcv : (check_convergence minR thr hist
                (mres r).convergence plan (mres r).plan r).1.status =
                ConvergenceStatus.CONVERGED
            · rw [if_pos hcv]
              refine ⟨List.pairwise_singleton _ _, by simp, ?_⟩
              intro r' hr' hfails
              rw [List.mem_singleton] at hr'
              subst hr'
              rw [hms] at hfails
              exact absurd hfails (by simp)
            · rw [if_neg hcv]
              by_cases hos : (check_convergence minR thr hist
                  (mres r).convergence plan (mres r).plan r).1.status =
                  ConvergenceStatus.OSCILLATING
              · rw [if_pos hos]
                refine ⟨List.pairwise_singleton _ _, by simp, ?_⟩
                intro r' hr' hfails
                rw [List.mem_singleton] at hr'
                subst hr'
                rw [hms] at hfails
                exact absurd hfails (by simp)
              · rw [if_neg hos]
                obtain ⟨ih1, ih2, ih3⟩ := run_loop_synth_fail ads minv mres
                  intr minR thr rest (mres r).plan _ _ r
                  (List.Pairwise.sublist (List.sublist_cons_self r rest) hp)
                dsimp only
                refine ⟨?_, ?_, ?_⟩
                · refine List.pairwise_cons.mpr ⟨?_, ih1⟩
                  intro x hx
                  exact (List.pairwise_cons.mp hp).1 x (ih2 x hx)
                · intro r' hr'
                  rcases List.mem_cons.mp hr' with rfl | hr'
                  · exact List.mem_cons_self _ _
                  · exact List.mem_cons_of_mem _ (ih2 r' hr')
                · intro r' hr' hfails
                  rcases List.mem_cons.mp hr' with rfl | hr'
                  · rw [hms] at hfails
                    exact absurd hfails (by simp)
                  · exact ih3 r' hr' hfails

/-- Round-`r` synthesizer plan in the concrete max-rounds scenario; the
three plans are pairwise completely different lines, so the oscillation
check never fires. -/
def c9_plan (r : Nat) : String :=
  if r = 1 then "alpha" else if r = 2 then "beta" else "gamma"

/-- A synthesizer that always reports `CONTINUING` (one open item). -/
def c9_synth : Nat → String → List AdvisorResult →
    Except MelderError MelderResult :=
  fun r _ _ =>
    .ok { plan := c9_plan r,
          convergence := some { status := ConvergenceStatus.CONTINUING,
                                changes_made := 1, open_items := 1 } }

/-- **C9.** A run whose round loop terminates by oscillation or by
reaching max_rounds is reported as a successful result with
`converged = false`; and with a synthesizer that always reports
CONTINUING and `max_rounds = 3`, the run stops at exactly round 3 with
`rounds_completed = 3`, terminal state max-rounds and
`converged = false`. -/
theorem C9_non_converged_success :
    (∀ (ads : List Adapter) (gen : Except MelderError MelderResult)
      (synth : Nat → String → List AdvisorResult →
        Except MelderError MelderResult)
      (intr : Nat → Bool) (mx : Nat) (res : MeldResult),
      (run ads gen synth intr mx).outcome = .ok res →
      ((run ads gen synth intr mx).terminal =
          some TerminalKind.oscillating ∨
        (run ads gen synth intr mx).terminal =
          some TerminalKind.maxRounds) →
      res.success = true ∧ res.converged = false) ∧
    run [] (.ok { plan := "init" }) c9_synth (fun _ => false) 3 =
      { outcome :=
          .ok
            { success := true, plan := "gamma", rounds_completed := 3,
              converged := false, advisors_participated := [] },
        terminal := some TerminalKind.maxRounds,
        synth_rounds := [1, 2, 3] } := by
  constructor
  · intro ads gen synth intr mx res hok hterm
    cases gen with
    | error e => exact absurd hok (by simp [run])
    | ok m0 =>
        rw [show run ads (.ok m0) synth intr mx =
            run_loop ads synth intr 1 0.05 (List.range' 1 mx) m0.plan
              [] [] 0 from rfl] at hok hterm
        obtain ⟨hs, hiff⟩ := run_loop_ok_inv ads synth intr 1 0.05
          (List.range' 1 mx) m0.plan [] [] 0 res hok
        refine ⟨hs, ?_⟩
        cases hc : res.converged with
        | false => rfl
        | true =>
            have hcv := hiff.mp hc
            rcases hterm with ht | ht <;> rw [hcv] at ht <;>
              exact TerminalKind.noConfusion (Option.some.inj ht)
  · rfl

/-- Witness for **C9**: the general clause applied to the concrete
scenario of the second clause. -/
theorem C9_non_converged_success_witness :
    ({ success := true, plan := "gamma", rounds_completed := 3,
       converged := false, advisors_participated := [] :
       MeldResult }).success = true ∧
    ({ success := true, plan := "gamma", rounds_completed := 3,
       converged := false, advisors_participated := [] :
       MeldResult }).converged = false :=
  C9_non_converged_success.1 [] (.ok { plan := "init" }) c9_synth
    (fun _ => false) 3 _ rfl (Or.inr rfl)

/-- A failing melder adapter invocation (the melder's `invoke` returned
`success=False` with a classified error). -/
def c5_fail : AdvisorResult :=
  { provider := "claude", success := false,
    error := some { error_type := ProviderErrorType.RATE_LIMITED,
                    message := "Rate limited", provider := "claude",
                    retryable := true } }

/-- A successful melder adapter invocation. -/
def c5_ok : AdvisorResult :=
  { provider := "claude", success := true, feedback := "ok" }

/-- Melder invocations that succeed at round 1 and fail afterwards. -/
def c5_minvB : Nat → AdvisorResult :=
  fun r => if r = 1 then c5_ok else c5_fail

/-- Run whose synthesis fails already at round 1 (initial plan `"p0"`). -/
def c5_runA : RunTrace :=
  run [] (.ok { plan := "p0" })
    (melder_synth (fun _ => c5_fail) (fun _ => { plan := "q1" }))
    (fun _ => false) 3

/-- Run whose synthesis succeeds at round 1 (producing plan `"q1"`) and
fails at round 2 (initial plan `"q0"`). -/
def c5_runB : RunTrace :=
  run [] (.ok { plan := "q0" })
    (melder_synth c5_minvB (fun _ => { plan := "q1" }))
    (fun _ => false) 3

/-- **C5 counterexample.** Two runs whose synthesis fails at different
rounds (round 1 with last-good plan `"p0"` versus round 2 with last-good
plan `"q1"`) propagate *identical* errors: the `RuntimeError` message is
built from `result.error` alone (melder.py line 66), so the propagated
error carries neither the round number at which it occurred nor the last
successfully obtained plan. -/
theorem C5_counterexample :
    c5_runA.outcome = .error (melder_synthesis_error c5_fail) ∧
    c5_runB.outcome = .error (melder_synthesis_error c5_fail) ∧
    c5_runA.synth_rounds = [1] ∧
    c5_runB.synth_rounds = [1, 2] :=
  ⟨rfl, rfl, rfl, rfl⟩

/-- **C5** (amended). A synthesizer failure crosses the orchestrator
boundary and aborts the run with the melder's own error, without any
orchestrator-level retry: an initial-plan failure aborts before any
round; during the loop the synthesizer is invoked at most once per
round, at strictly increasing rounds, and the first failing invocation
makes its error the outcome of the whole run.  (The propagated error
does not carry the failure round or the last-good plan; see the
counterexample.) -/
theorem C5_synthesizer_abort :
    (∀ (ads : List Adapter) (minit : AdvisorResult) (m0 : MelderResult)
      (synth : Nat → String → List AdvisorResult →
        Except MelderError MelderResult)
      (intr : Nat → Bool) (mx : Nat),
      minit.success = false →
      run ads (melder_gen minit m0) synth intr mx =
        ⟨.error (melder_initial_error minit), none, []⟩) ∧
    (∀ (ads : List Adapter) (minv : Nat → AdvisorResult)
      (mres : Nat → MelderResult) (intr : Nat → Bool) (mx : Nat)
      (m0 : MelderResult),
      List.Pairwise (fun a b => a < b)
        (run ads (.ok m0) (melder_synth minv mres) intr
          mx).synth_rounds ∧
      ∀ r ∈ (run ads (.ok m0) (melder_synth minv mres) intr
          mx).synth_rounds,
        (minv r).success = false →
        (run ads (.ok m0) (melder_synth minv mres) intr mx).outcome =
          .error (melder_synthesis_error (minv r))) := by
  constructor
  · intro ads minit m0 synth intr mx hf
    have hg : melder_gen minit m0 = .error (melder_initial_error minit) := by
      unfold melder_gen
      rw [hf]
      exact if_neg (by simp)
    rw [hg]
    rfl
  · intro ads minv mres intr mx m0
    have hpw : List.Pairwise (fun a b => a < b) (List.range' 1 mx) := by
      have := List.pairwise_lt_range' 1 mx
      exact this.imp (fun h => h)
    obtain ⟨h1, _, h3⟩ := run_loop_synth_fail ads minv mres intr 1 0.05
      (List.range' 1 mx) m0.plan [] [] 0 hpw
    exact ⟨h1, h3⟩

/-- Witness for **C5**: both clauses at concrete inputs — an
initial-plan failure aborts with the "Melder failed" error, and a
round-1 synthesis failure makes the "Melder synthesis failed" error the
run's outcome. -/
theorem C5_synthesizer_abort_witness :
    run [] (melder_gen c5_fail { plan := "p0" })
        (melder_synth (fun _ => c5_fail) (fun _ => { plan := "q1" }))
        (fun _ => false) 2 =
      ⟨.error (melder_initial_error c5_fail), none, []⟩ ∧
    c5_runA.outcome = .error (melder_synthesis_error c5_fail) :=
  ⟨C5_synthesizer_abort.1 [] c5_fail { plan := "p0" }
      (melder_synth (fun _ => c5_fail) (fun _ => { plan := "q1" }))
      (fun _ => false) 2 rfl,
    (C5_synthesizer_abort.2 [] (fun _ => c5_fail)
        (fun _ => { plan := "q1" }) (fun _ => false) 3
        { plan := "p0" }).2 1 (by decide) rfl⟩

end ClaimEvaluation

end Meld
